import Mathlib

/-!
Verification of the derived-geometry core of the road-network renderer
(map_gui/src/render/intersection.rs).

The geometry primitives (points, directed line segments, polylines,
distances, angles) live in an external library that is consumed but not
part of the sources under verification; the spec describes them only by
the operations the core invokes (shift left/right by a distance, slice by
arc-length range, project a point along a heading, thicken into polygons).
We embed them over exact rational arithmetic:

* a point is a pair of rationals;
* a directed segment stores its start point, its direction vector
  (intended to be a unit vector; no proof is carried, none of the theorems
  need it) and its arc length, so that arc-length operations
  (slicing, dist_along, shifting by a perpendicular offset with miter
  joints) stay inside the rational plane;
* rotations by non-right angles (only the stop-sign octagon uses them,
  through rotate_degs at 22.5 degree offsets) leave the rational plane, so
  octagon vertices are kept symbolic as (center, radius, facing,
  offset-degrees) records, exactly the parameters the external
  project_away call receives;
* polygons produced by external builders (make_polygons, make_arrow) are
  kept symbolic as constructors recording the builder inputs.
-/

namespace ABStreet

/-- A 2D point (or vector) with exact rational coordinates. -/
structure Pt2D where
  x : ℚ
  y : ℚ
deriving DecidableEq

instance : Inhabited Pt2D := ⟨⟨0, 0⟩⟩

/-- Vector addition. -/
def Pt2D.add (p q : Pt2D) : Pt2D := ⟨p.x + q.x, p.y + q.y⟩

/-- Vector subtraction. -/
def Pt2D.sub (p q : Pt2D) : Pt2D := ⟨p.x - q.x, p.y - q.y⟩

/-- Scaling of a vector by a rational. -/
def Pt2D.smul (c : ℚ) (p : Pt2D) : Pt2D := ⟨c * p.x, c * p.y⟩

/-- Vector negation. -/
def Pt2D.neg (p : Pt2D) : Pt2D := ⟨-p.x, -p.y⟩

/-- Dot product. -/
def Pt2D.dot (p q : Pt2D) : ℚ := p.x * q.x + p.y * q.y

/-- 2D cross product (z component). -/
def Pt2D.cross (p q : Pt2D) : ℚ := p.x * q.y - p.y * q.x

/-- Squared Euclidean distance between two points (kept squared so that it
stays rational). -/
def Pt2D.distSq (p q : Pt2D) : ℚ := (p.x - q.x) ^ 2 + (p.y - q.y) ^ 2

/-- Modelled from the spec: Pt2D::approx_eq of the external geometry
library, point equality within a tolerance; embedded as squared-distance
comparison so that it is exact over the rationals. -/
def Pt2D.approx_eq (p q : Pt2D) (threshold : ℚ) : Bool :=
  decide (Pt2D.distSq p q ≤ threshold ^ 2)

/-- Right-hand perpendicular of a direction vector (the convention fixing
which side shift_right offsets toward; the spec leaves the sign
convention to the external library). -/
def rightNormal (d : Pt2D) : Pt2D := ⟨d.y, -d.x⟩

/-- Left-hand perpendicular of a direction vector. -/
def leftNormal (d : Pt2D) : Pt2D := ⟨-d.y, d.x⟩

/-- Modelled from the spec: project a point along a heading by a distance
(Pt2D::project_away of the external library), for headings represented as
direction vectors. -/
def Pt2D.project_away (p : Pt2D) (dist : ℚ) (dir : Pt2D) : Pt2D :=
  p.add (Pt2D.smul dist dir)

/-- Modelled from the spec: the external geometry library's small epsilon
distance EPSILON_DIST (the spec gives no numeric value; any positive value
well below 0.1 m yields the same statements). -/
def EPSILON_DIST : ℚ := 1 / 100

/-- A directed line segment of an arc-length parametrized polyline: a unit
direction and a length. -/
structure Seg where
  dir : Pt2D
  len : ℚ
deriving DecidableEq

/-- A directed line segment, geom::Line: start point, direction, length. -/
structure Line where
  pt1 : Pt2D
  dir : Pt2D
  len : ℚ
deriving DecidableEq

instance : Inhabited Line := ⟨⟨default, ⟨1, 0⟩, 0⟩⟩

/-- Second endpoint of a segment. -/
def Line.pt2 (l : Line) : Pt2D := l.pt1.add (Pt2D.smul l.len l.dir)

/-- geom::Line::shift_right: translate the segment by its right normal
scaled by the given width. -/
def Line.shift_right (l : Line) (w : ℚ) : Line :=
  { l with pt1 := l.pt1.add (Pt2D.smul w (rightNormal l.dir)) }

/-- geom::Line::shift_left. -/
def Line.shift_left (l : Line) (w : ℚ) : Line :=
  { l with pt1 := l.pt1.add (Pt2D.smul w (leftNormal l.dir)) }

/-- Modelled from the spec: geom::Line::shift_either_direction, shifting
right for nonnegative offsets and left by the negated offset otherwise. -/
def Line.shift_either_direction (l : Line) (w : ℚ) : Line :=
  if 0 ≤ w then l.shift_right w else l.shift_left (-w)

/-- geom::Line::reverse. -/
def Line.reverse (l : Line) : Line := ⟨l.pt2, l.dir.neg, l.len⟩

/-- geom::Line::unbounded_dist_along: walk the given (possibly negative,
possibly beyond-length) distance from the start point. -/
def Line.unbounded_dist_along (l : Line) (d : ℚ) : Pt2D :=
  l.pt1.add (Pt2D.smul d l.dir)

/-- Modelled from the spec: geom::Line::dist_along, defined exactly on
distances between zero and the segment length. -/
def Line.dist_along (l : Line) (d : ℚ) : Option Pt2D :=
  if 0 ≤ d ∧ d ≤ l.len then some (l.pt1.add (Pt2D.smul d l.dir)) else none

/-- Modelled from the spec: geom::Line::new, declining segments whose
length is at or below the epsilon distance. -/
def Line.new (pt1 dir : Pt2D) (len : ℚ) : Option Line :=
  if len ≤ EPSILON_DIST then none else some ⟨pt1, dir, len⟩

/-- A polyline: a start point followed by arc-length parametrized
segments. -/
structure PolyLine where
  start : Pt2D
  segs : List Seg
deriving DecidableEq

/-- Total arc length of a polyline. -/
def PolyLine.length (pl : PolyLine) : ℚ :=
  (pl.segs.map Seg.len).sum

/-- The vertex reached after walking a list of segments from a point. -/
def walkSegs (p : Pt2D) : List Seg → Pt2D
  | [] => p
  | s :: rest => walkSegs (p.add (Pt2D.smul s.len s.dir)) rest

/-- Last point of a polyline. -/
def PolyLine.last_pt (pl : PolyLine) : Pt2D := walkSegs pl.start pl.segs

/-- First point of a polyline. -/
def PolyLine.first_pt (pl : PolyLine) : Pt2D := pl.start

/-- The vertex list of a polyline (PolyLine::points / into_points). -/
def pointsFrom (p : Pt2D) : List Seg → List Pt2D
  | [] => [p]
  | s :: rest => p :: pointsFrom (p.add (Pt2D.smul s.len s.dir)) rest

/-- PolyLine::points. -/
def PolyLine.points (pl : PolyLine) : List Pt2D := pointsFrom pl.start pl.segs

/-- PolyLine::first_line. -/
def PolyLine.first_line (pl : PolyLine) : Line :=
  match pl.segs with
  | [] => ⟨pl.start, ⟨1, 0⟩, 0⟩
  | s :: _ => ⟨pl.start, s.dir, s.len⟩

/-- PolyLine::last_line. -/
def PolyLine.last_line (pl : PolyLine) : Line :=
  match pl.segs.getLast? with
  | none => ⟨pl.start, ⟨1, 0⟩, 0⟩
  | some s => ⟨(pl.last_pt).sub (Pt2D.smul s.len s.dir), s.dir, s.len⟩

/-- PolyLine::reversed. -/
def PolyLine.reversed (pl : PolyLine) : PolyLine :=
  ⟨pl.last_pt, (pl.segs.reverse).map (fun s => ⟨s.dir.neg, s.len⟩)⟩

/-- Drop the first d units of arc length from a segment walk, returning the
new start point and remaining segments. -/
def cutFront (d : ℚ) (p : Pt2D) : List Seg → Pt2D × List Seg
  | [] => (p, [])
  | s :: rest =>
    if d ≤ 0 then (p, s :: rest)
    else if d < s.len then (p.add (Pt2D.smul d s.dir), ⟨s.dir, s.len - d⟩ :: rest)
    else cutFront (d - s.len) (p.add (Pt2D.smul s.len s.dir)) rest

/-- Keep only the first d units of arc length of a segment list. -/
def cutTo (d : ℚ) : List Seg → List Seg
  | [] => []
  | s :: rest =>
    if d ≤ 0 then []
    else if d ≤ s.len then [⟨s.dir, d⟩]
    else s :: cutTo (d - s.len) rest

/-- Modelled from the spec: PolyLine::exact_slice, slicing a polyline by an
arc-length range. -/
def PolyLine.exact_slice (pl : PolyLine) (a b : ℚ) : PolyLine :=
  match cutFront a pl.start pl.segs with
  | (st, rest) => ⟨st, cutTo (b - a) rest⟩

/-- Intersection point of the line through a with direction da and the line
through b with direction db; none when the directions are parallel. -/
def lineInter (a da b db : Pt2D) : Option Pt2D :=
  let den := Pt2D.cross da db
  if den = 0 then none
  else some (a.add (Pt2D.smul (Pt2D.cross (b.sub a) db / den) da))

/-- The displaced vertex where the right-offset lines of two consecutive
segments meet (miter joint); translation when the directions agree, none
when the directions are parallel but different. -/
def miterPt (w : ℚ) (p d0 d1 : Pt2D) : Option Pt2D :=
  if d0 = d1 then some (p.add (Pt2D.smul w (rightNormal d1)))
  else lineInter (p.add (Pt2D.smul w (rightNormal d0))) d0
    (p.add (Pt2D.smul w (rightNormal d1))) d1

/-- Signed length of the component of v along direction d (recovering a new
segment length after a parallel displacement). -/
def lenAlong (v d : Pt2D) : ℚ := Pt2D.dot v d / Pt2D.dot d d

/-- Walk the segments of a polyline being shifted right by w: qPrev is the
already displaced previous vertex, pCur the original vertex starting the
current segment. Produces the displaced segment list. -/
def shiftLoop (w : ℚ) (qPrev pCur : Pt2D) : List Seg → Option (List Seg)
  | [] => some []
  | [s] =>
    let qNext := (pCur.add (Pt2D.smul s.len s.dir)).add (Pt2D.smul w (rightNormal s.dir))
    some [⟨s.dir, lenAlong (qNext.sub qPrev) s.dir⟩]
  | s :: s2 :: rest =>
    let pNext := pCur.add (Pt2D.smul s.len s.dir)
    match miterPt w pNext s.dir s2.dir with
    | none => none
    | some qNext =>
      match shiftLoop w qNext pNext (s2 :: rest) with
      | none => none
      | some segs2 => some (⟨s.dir, lenAlong (qNext.sub qPrev) s.dir⟩ :: segs2)

/-- Modelled from the spec: PolyLine::shift_right — offset every segment by
its right normal scaled by w and rejoin consecutive segments at the
intersection of their offset lines (failing at a reversal, where the
offset lines are parallel but the directions differ). -/
def PolyLine.shift_right (pl : PolyLine) (w : ℚ) : Option PolyLine :=
  match pl.segs with
  | [] => none
  | s :: _ =>
    let q0 := pl.start.add (Pt2D.smul w (rightNormal s.dir))
    match shiftLoop w q0 pl.start pl.segs with
    | none => none
    | some segs2 => some ⟨q0, segs2⟩

/-- PolyLine::shift_left. -/
def PolyLine.shift_left (pl : PolyLine) (w : ℚ) : Option PolyLine :=
  pl.shift_right (-w)

/-- Modelled from the spec: PolyLine::shift_either_direction, shifting
right for nonnegative offsets and left by the negated offset otherwise. -/
def PolyLine.shift_either_direction (pl : PolyLine) (w : ℚ) : Option PolyLine :=
  if 0 ≤ w then pl.shift_right w else pl.shift_left (-w)

/-- PolyLine::must_shift_left (total wrapper; theorems about it carry the
wellformedness hypotheses under which the shift succeeds). -/
def PolyLine.must_shift_left (pl : PolyLine) (w : ℚ) : PolyLine :=
  (pl.shift_left w).getD pl

/-- PolyLine::must_shift_right. -/
def PolyLine.must_shift_right (pl : PolyLine) (w : ℚ) : PolyLine :=
  (pl.shift_right w).getD pl

/-- Drop consecutive duplicate points. -/
def dedupConsec : List Pt2D → List Pt2D
  | [] => []
  | [p] => [p]
  | p :: q :: rest => if p = q then dedupConsec (q :: rest) else p :: dedupConsec (q :: rest)

/-- Modelled from the spec: PolyLine::deduping_new — dedupe consecutive
duplicate points and fail when fewer than two points remain. -/
def dedupingNew (pts : List Pt2D) : Option (List Pt2D) :=
  let d := dedupConsec pts
  if 2 ≤ d.length then some d else none

/-- A symbolic Pt2D::project_away result for a heading that is the given
facing direction rotated by the given offset in degrees; rotations by
non-right angles leave the rational plane, so the external library call is
recorded by its parameters. -/
structure ProjPt where
  base : Pt2D
  dist : ℚ
  facing : Pt2D
  offsetDegs : ℚ
deriving DecidableEq

/-- Modelled from the spec: widgetry::Color — the fixed named colors the
renderer uses plus hex literals; an opaque styling value. -/
inductive Color where
  | WHITE
  | RED
  | ORANGE
  | YELLOW
  | GREEN
  | BLUE
  | hexColor (s : String)
  | styled (tag : ℕ)
deriving DecidableEq

/-- Modelled from the spec: geom::ArrowCap. -/
inductive ArrowCap where
  | Triangle
deriving DecidableEq

/-- A produced polygon. Polygons built by external library routines
(make_polygons thickening, make_arrow, the octagon ring of symbolic
rotated projections) are recorded by the inputs handed to the builder;
polygons assembled point-by-point in the renderer keep their point
lists. -/
inductive Polygon where
  | buggy_new (pts : List Pt2D)
  | ring (pts : List Pt2D)
  | thickened (pts : List Pt2D) (width : ℚ)
  | arrow (pts : List Pt2D) (thickness : ℚ) (cap : ArrowCap)
  | octagonRing (pts : List ProjPt)
deriving DecidableEq

/-- PolyLine::make_polygons: thicken a polyline into a polygon (external
builder, recorded symbolically). -/
def PolyLine.make_polygons (pl : PolyLine) (width : ℚ) : Polygon :=
  Polygon.thickened pl.points width

/-- Line::make_polygons. -/
def Line.make_polygons (l : Line) (width : ℚ) : Polygon :=
  Polygon.thickened [l.pt1, l.pt2] width

/-- PolyLine::make_arrow (external builder, recorded symbolically). -/
def PolyLine.make_arrow (pl : PolyLine) (thickness : ℚ) (cap : ArrowCap) : Polygon :=
  Polygon.arrow pl.points thickness cap

/-- Consecutive pairs of a list (the windows(2) iteration). -/
def windowsPair (l : List Pt2D) : List (Pt2D × Pt2D) := l.zip l.tail

/-- Modelled from the spec: Ring::new — a strict ring builder that declines
degenerate point loops (too few points, loop not closed, or consecutive
duplicate points). -/
def ringNew (pts : List Pt2D) : Option (List Pt2D) :=
  if 4 ≤ pts.length ∧ pts.head? = pts.getLast? ∧ (windowsPair pts).all (fun pq => decide (pq.1 ≠ pq.2))
  then some pts else none

/- ------------------------------------------------------------------ -/
/- The read-only map model consumed by the renderer. -/

/-- Lane direction relative to its parent road. -/
inductive Direction where
  | Fwd
  | Back
deriving DecidableEq

/-- The global driving-side configuration. -/
inductive DrivingSide where
  | Right
  | Left
deriving DecidableEq

/-- Lane classification (only sidewalk-ness matters to the claims; other
types are collapsed). -/
inductive LaneType where
  | Sidewalk
  | Shoulder
  | Driving
  | Biking
  | Parking
deriving DecidableEq

/-- Turn classification. -/
inductive TurnType where
  | Crosswalk
  | SharedSidewalkCorner
  | VehicleTurn
deriving DecidableEq

/-- TurnID: (source lane, destination lane, parent intersection). -/
structure TurnID where
  src : ℕ
  dst : ℕ
  parent : ℕ
deriving DecidableEq

/-- A turn record. -/
structure Turn where
  id : TurnID
  turn_type : TurnType
  geom : PolyLine
deriving DecidableEq

/-- A lane record: width, center polyline, endpoint intersections, parent
road. -/
structure Lane where
  width : ℚ
  lane_center_pts : PolyLine
  src_i : ℕ
  dst_i : ℕ
  parent : ℕ
deriving DecidableEq

/-- Lane::length. -/
def Lane.length (l : Lane) : ℚ := l.lane_center_pts.length

/-- Lane::first_line. -/
def Lane.first_line (l : Lane) : Line := l.lane_center_pts.first_line

/-- Lane::last_line. -/
def Lane.last_line (l : Lane) : Line := l.lane_center_pts.last_line

/-- A road record: endpoints, center polyline, left-to-right lanes,
originating OSM way, and (modelled from the spec) its direction-change
aware centerline as returned by get_dir_change_pl. -/
structure Road where
  src_i : ℕ
  dst_i : ℕ
  center_pts : PolyLine
  lanes_ltr : List (ℕ × Direction × LaneType)
  orig_osm_way : ℕ
  dir_change_pl : PolyLine

/-- An intersection record; rank, footway flag, originating OSM node and
the outer ring of the boundary polygon are modelled from the spec as
read-only queries of the map model. -/
structure Intersection where
  id : ℕ
  orig_node : ℕ
  roads : List ℕ
  incoming_lanes : List ℕ
  outgoing_lanes : List ℕ
  rank : ℕ
  is_footway : Bool
  polygon_ring : Option (List Pt2D)

/-- The per-approach stop sign record (only the field the glyph placement
reads). -/
structure RoadWithStopSign where
  lane_closest_to_edge : ℕ

/-- Modelled from the spec: the read-only map model, as the lookup
interface the renderer consumes. -/
structure Map where
  get_l : ℕ → Lane
  get_r : ℕ → Road
  get_i : ℕ → Intersection
  turns_in : ℕ → List Turn
  driving_side : DrivingSide

/-- Map::get_parent of a lane. -/
def Map.get_parent (m : Map) (laneId : ℕ) : Road := m.get_r (m.get_l laneId).parent

/-- Road::get_half_width: half the summed width of the road's lanes. -/
def Road.get_half_width (r : Road) (m : Map) : ℚ :=
  ((r.lanes_ltr.map (fun t => (m.get_l t.1).width)).sum) / 2

/-- Modelled from the spec: the styling collaborator — a pure color
lookup. -/
structure ColorScheme where
  general_road_marking : ℕ → Color

/- ------------------------------------------------------------------ -/
/- The embedded renderer functions (map_gui/src/render/intersection.rs). -/

/-- make_octagon: the ring of nine points (the first repeated, since the
angles 22.5 and 382.5 coincide) at the given radius from the center, at
headings facing rotated by 22.5 + i*360/8 degrees; the rotated
project_away calls are recorded symbolically. -/
def make_octagon (center : Pt2D) (radius : ℚ) (facing : Pt2D) : Polygon :=
  Polygon.octagonRing
    ((List.range 9).map (fun i => ⟨center, radius, facing, 45 / 2 + ((i * 360) / 8 : ℕ)⟩))

/-- perp_line: the segment from the right-shifted start point of l to its
left-shifted start point; that segment runs along the left normal of l for
the given length (Line::must_new of the two shifted points). -/
def perp_line (l : Line) (length : ℚ) : Line :=
  ⟨(l.shift_right (length / 2)).pt1, leftNormal l.dir, length⟩

/-- The pole of the stop sign glyph: Line::must_new of the points 1.5 m and
0.9 m behind the shifted segment's endpoint along the opposite heading —
a segment starting 1.5 m behind, running along the heading for 0.6 m. -/
def poleLine (last_line : Line) : Line :=
  ⟨(last_line.pt2).project_away (3 / 2) last_line.dir.neg, last_line.dir, 3 / 2 - 9 / 10⟩

/-- DrawIntersection::stop_sign_geom: the (octagon, pole, angle) placement
of a stop sign glyph, or none when there is no room. -/
def stop_sign_geom (ss : RoadWithStopSign) (m : Map) : Option (Polygon × Polygon × Pt2D) :=
  let trim_back : ℚ := 1 / 10
  let edge_lane := m.get_l ss.lane_closest_to_edge
  if edge_lane.length - trim_back ≤ EPSILON_DIST then none
  else
    let ll0 := (edge_lane.lane_center_pts.exact_slice 0 (edge_lane.length - trim_back)).last_line
    let last_line :=
      if m.driving_side = DrivingSide.Right then ll0.shift_right edge_lane.width
      else ll0.shift_left edge_lane.width
    let octagon := make_octagon last_line.pt2 1 last_line.dir
    let pole := (poleLine last_line).make_polygons (3 / 10)
    some (octagon, pole, last_line.dir)

/-- The rainbow-crosswalk allow-list test: the literal match on
(origin node id, origin way id) pairs in make_rainbow_crosswalk. -/
def rainbowAllowListed (node way : ℕ) : Bool :=
  match node, way with
  | 53073255, 428246441 | 53073255, 332601014
  | 53073254, 6447455 | 53073254, 607690679
  | 53168934, 6456052
  | 53200834, 6456052
  | 53068795, 607691081 | 53068795, 65588105
  | 53068794, 65588105 => true
  | _, _ => false

/-- The fixed band palette of make_rainbow_crosswalk. -/
def rainbowColors : List Color :=
  [Color.WHITE, Color.RED, Color.ORANGE, Color.YELLOW, Color.GREEN, Color.BLUE,
    Color.hexColor "#8B00FF", Color.WHITE]

/-- make_rainbow_crosswalk: some batch when the (node, way) pair is in the
hardcoded allow-list (the batch being the eight equal bands of the inset
slice of the turn geometry, colored from the fixed palette), none when the
function returns false and the caller falls through to standard
striping. -/
def make_rainbow_crosswalk (m : Map) (turn : Turn) : Option (List (Color × Polygon)) :=
  let node := (m.get_i turn.id.parent).orig_node
  let way := (m.get_parent turn.id.src).orig_osm_way
  if rainbowAllowListed node way then
    let total_width := (m.get_l turn.id.src).width
    let band_width := total_width / (rainbowColors.length : ℚ)
    let slice := ((turn.geom.exact_slice total_width (turn.geom.length - total_width)).must_shift_left
      (total_width / 2 - band_width / 2))
    some (rainbowColors.enum.map (fun ic =>
      (ic.2, (slice.must_shift_right (band_width * (ic.1 : ℚ))).make_polygons band_width)))
  else none

/-- The body of the stripe loop of make_crosswalk (for _ in 0..=num_markings):
the remaining iteration count and the running dist_along; fails (the
expect calls) when a dist_along is out of range. -/
def crosswalkLoop (line : Line) (col : Color) (clt tile_every width : ℚ) :
    ℕ → ℚ → Option (List (Color × Polygon))
  | 0, _ => some []
  | n + 1, dist_along =>
    match line.dist_along dist_along with
    | none => none
    | some pt1 =>
      let poly1 := (perp_line ⟨pt1, line.dir, 1⟩ width).make_polygons clt
      match line.dist_along (dist_along + 2 * clt) with
      | none => none
      | some pt3 =>
        let poly2 := (perp_line ⟨pt3, line.dir, 1⟩ width).make_polygons clt
        match crosswalkLoop line col clt tile_every width n (dist_along + tile_every) with
        | none => none
        | some rest => some ((col, poly1) :: (col, poly2) :: rest)

/-- The standard striping path of make_crosswalk (after the rainbow special
case): some batch of pushed (color, polygon) pairs, none when a dist_along
expect would fail (a panic). The constants sidewalk_thickness
(map_model::SIDEWALK_THICKNESS) and crosswalk_line_thickness
(render::CROSSWALK_LINE_THICKNESS) are modelled from the spec as
parameters since their defining modules are external to the sampled
sources. -/
def make_crosswalk_std (sidewalk_thickness crosswalk_line_thickness : ℚ) (cs : ColorScheme)
    (m : Map) (turn : Turn) : Option (List (Color × Polygon)) :=
  let width := sidewalk_thickness
  let boundary := width
  let tile_every := width * (6 / 10)
  match turn.geom.segs with
  | [] => some []
  | [_] => some []
  | _ :: s1 :: _ =>
    match Line.new ((turn.geom.points).getD 1 default) s1.dir s1.len with
    | none => some []
    | some line =>
      let available_length := line.len - boundary * 2
      if 0 < available_length then
        let num_markings := (⌊available_length / tile_every⌋).toNat
        let dist_along := boundary + (available_length - tile_every * (num_markings : ℚ)) / 2
        let col := cs.general_road_marking (m.get_i turn.id.parent).rank
        crosswalkLoop line col crosswalk_line_thickness tile_every width (num_markings + 1) dist_along
      else some []

/-- make_crosswalk: the rainbow special case first, else standard
striping. -/
def make_crosswalk (sidewalk_thickness crosswalk_line_thickness : ℚ) (cs : ColorScheme)
    (m : Map) (turn : Turn) : Option (List (Color × Polygon)) :=
  match make_rainbow_crosswalk m turn with
  | some batch => some batch
  | none => make_crosswalk_std sidewalk_thickness crosswalk_line_thickness cs m turn

/-- The per-turn body of the calculate_corners loop: the polygon the turn
contributes, or none when the turn is skipped. -/
def cornerPolyFor (i : Intersection) (m : Map) (turn : Turn) : Option Polygon :=
  if turn.turn_type = TurnType.SharedSidewalkCorner then
    if (m.get_l turn.id.src).dst_i ≠ i.id then none
    else
      let l1 := m.get_l turn.id.src
      let l2 := m.get_l turn.id.dst
      if i.roads.length = 1 then
        some (turn.geom.make_polygons (min l1.width l2.width))
      else if l1.width = l2.width then
        let width := l1.width
        match turn.geom.shift_left (width / 2) with
        | none => none
        | some sl =>
          match turn.geom.shift_right (width / 2) with
          | none => none
          | some sr =>
            let pts := sl.points
              ++ [(l2.first_line.shift_left (width / 2)).pt1,
                  (l2.first_line.shift_right (width / 2)).pt1]
              ++ sr.reversed.points
              ++ [(l1.last_line.shift_right (width / 2)).pt2,
                  (l1.last_line.shift_left (width / 2)).pt2]
            some (Polygon.buggy_new (pts ++ [pts.headI]))
      else
        let pts := [(l2.first_line.shift_left (l2.width / 2)).pt1,
                    (l2.first_line.shift_right (l2.width / 2)).pt1,
                    (l1.last_line.shift_right (l1.width / 2)).pt2,
                    (l1.last_line.shift_left (l1.width / 2)).pt2]
        match ringNew (pts ++ [pts.headI]) with
        | none => none
        | some ring => some (Polygon.ring ring)
  else none

/-- calculate_corners. -/
def calculate_corners (i : Intersection) (m : Map) : List Polygon :=
  if i.is_footway then [] else (m.turns_in i.id).filterMap (cornerPolyFor i m)

/-- The tail of each curb branch: deduping_new on the assembled points,
then thickening into a curb polygon on success (skip silently on
failure). -/
def curbFinish (pts : List Pt2D) (thickness : ℚ) : Option Polygon :=
  match dedupingNew pts with
  | none => none
  | some dpts => some (Polygon.thickened dpts thickness)

/-- The per-turn body of the calculate_corner_curbs loop. -/
def curbPolyFor (i : Intersection) (m : Map) (turn : Turn) : Option Polygon :=
  if turn.turn_type = TurnType.SharedSidewalkCorner then
    if (m.get_l turn.id.src).dst_i ≠ i.id then none
    else
      let l1 := m.get_l turn.id.src
      let l2 := m.get_l turn.id.dst
      let thickness : ℚ := 2 / 10
      if l1.width = l2.width then
        let width0 := (l1.width - thickness) / 2
        let width := if m.driving_side = DrivingSide.Right then -width0 else width0
        match turn.geom.shift_either_direction width with
        | none => none
        | some spl =>
          let first_line := (l2.first_line).shift_either_direction width
          let last_line := ((l1.last_line).shift_either_direction width).reverse
          curbFinish
            ([last_line.unbounded_dist_along thickness, last_line.pt1] ++
              (spl.points ++ [first_line.pt1, first_line.unbounded_dist_along thickness]))
            thickness
      else
        let direction : ℚ := if m.driving_side = DrivingSide.Right then -1 else 1
        let last_line := (l1.last_line).shift_either_direction (direction * ((l1.width - thickness) / 2))
        let first_line := (l2.first_line).shift_either_direction (direction * ((l2.width - thickness) / 2))
        curbFinish
          [(last_line.reverse).unbounded_dist_along thickness, last_line.pt2,
            first_line.pt1, first_line.unbounded_dist_along thickness]
          thickness
  else none

/-- calculate_corner_curbs. -/
def calculate_corner_curbs (i : Intersection) (m : Map) : List Polygon :=
  if i.is_footway then [] else (m.turns_in i.id).filterMap (curbPolyFor i m)

/-- calculate_border_arrows: an arrow toward the road when the intersection
has outgoing lanes, then an arrow toward the void when it has incoming
lanes. -/
def calculate_border_arrows (i : Intersection) (r : Road) (m : Map) : List Polygon :=
  let widths := r.lanes_ltr.foldl
    (fun (acc : ℚ × ℚ) t =>
      if t.2.1 = Direction.Fwd then (acc.1 + (m.get_l t.1).width, acc.2)
      else (acc.1, acc.2 + (m.get_l t.1).width))
    (0, 0)
  let width_fwd := widths.1
  let width_back := widths.2
  let center := r.dir_change_pl
  let outgoing : List Polygon :=
    if i.outgoing_lanes.isEmpty then []
    else
      let lw :=
        if r.dst_i = i.id then ((center.last_line.shift_left (width_back / 2)).reverse, width_back)
        else (center.first_line.shift_right (width_fwd / 2), width_fwd)
      let line := lw.1
      let pl : PolyLine :=
        ⟨line.unbounded_dist_along (-(19 / 2)), [⟨line.dir, (-(1 / 2) : ℚ) - (-(19 / 2))⟩]⟩
      [pl.make_arrow (lw.2 / 3) ArrowCap.Triangle]
  let incoming : List Polygon :=
    if i.incoming_lanes.isEmpty then []
    else
      let lw :=
        if r.dst_i = i.id then ((center.last_line.shift_right (width_fwd / 2)).reverse, width_fwd)
        else (center.first_line.shift_left (width_back / 2), width_back)
      let line := lw.1
      let pl : PolyLine :=
        ⟨line.unbounded_dist_along (-(1 / 2)), [⟨line.dir.neg, (-(1 / 2) : ℚ) - (-(19 / 2))⟩]⟩
      [pl.make_arrow (lw.2 / 3) ArrowCap.Triangle]
  outgoing ++ incoming

/-- The (left edge, right edge) point pair a road contributes on the
intersection boundary ring, taken at whichever end of the road touches the
intersection. -/
def roadEdgePair (i : Intersection) (m : Map) (rid : ℕ) : Pt2D × Pt2D :=
  let road := m.get_r rid
  let half_width := road.get_half_width m
  let left := road.center_pts.must_shift_left half_width
  let right := road.center_pts.must_shift_right half_width
  if road.src_i = i.id then (left.first_pt, right.first_pt)
  else (left.last_pt, right.last_pt)

/-- approx_eq (the helper under get_unzoomed_outline): the two pairs match
endpoint-by-endpoint within 0.1 m, in either point order. -/
def approx_eq_pairs (pair1 pair2 : Pt2D × Pt2D) : Bool :=
  let epsilon : ℚ := 1 / 10
  (Pt2D.approx_eq pair1.1 pair2.1 epsilon && Pt2D.approx_eq pair1.2 pair2.2 epsilon)
  || (Pt2D.approx_eq pair1.1 pair2.2 epsilon && Pt2D.approx_eq pair1.2 pair2.1 epsilon)

/-- DrawIntersection::get_unzoomed_outline: every boundary-ring edge not
covered by a road edge pair, each an independent one-segment polyline
(represented by its endpoint pair). -/
def get_unzoomed_outline (i : Intersection) (m : Map) : List (Pt2D × Pt2D) :=
  match i.polygon_ring with
  | none => []
  | some ring =>
    let road_pairs := i.roads.map (roadEdgePair i m)
    (windowsPair ring).filter (fun pair1 => !(road_pairs.any (fun pair2 => approx_eq_pairs pair1 pair2)))

/- ------------------------------------------------------------------ -/
/- The cached render facade (DrawIntersection's two slots). -/

/-- The mutable state of a DrawIntersection: the lazily realized default
drawable and the time-keyed traffic signal drawable. -/
structure DrawIntersectionState (D : Type) where
  draw_default : Option D
  draw_traffic_signal : Option (ℚ × D)
deriving DecidableEq

/-- DrawIntersection::clear_rendering. -/
def clear_rendering {D : Type} (s : DrawIntersectionState D) : DrawIntersectionState D :=
  { s with draw_default := none }

/-- One Renderable::draw call, as a state transition: realize the default
slot when empty, then (when a live signal overlay exists and is not
suppressed) recompute the signal slot exactly when its stored time key
differs from the simulation time. The upload functions stand for the
presentation layer. -/
def drawStep {D : Type} (render_upload : Unit → D) (signal_upload : ℚ → D)
    (has_signal suppressed : Bool) (sim_time : ℚ)
    (s : DrawIntersectionState D) : DrawIntersectionState D :=
  let s1 :=
    match s.draw_default with
    | none => { s with draw_default := some (render_upload ()) }
    | some _ => s
  if has_signal && !suppressed then
    let recalc :=
      match s1.draw_traffic_signal with
      | some td => decide (td.1 ≠ sim_time)
      | none => true
    if recalc then { s1 with draw_traffic_signal := some (sim_time, signal_upload sim_time) }
    else s1
  else s1

/- ------------------------------------------------------------------ -/
/- Spec-side definitions (the claims' own vocabulary, for comparison with
the embedded source functions). -/

/-- The summed lane width of the forward travel direction of a road (the
spec's width_fwd). -/
def fwdWidthSum (r : Road) (m : Map) : ℚ :=
  ((r.lanes_ltr.filter (fun t => t.2.1 = Direction.Fwd)).map (fun t => (m.get_l t.1).width)).sum

/-- The summed lane width of the backward travel direction of a road (the
spec's width_back). -/
def backWidthSum (r : Road) (m : Map) : ℚ :=
  ((r.lanes_ltr.filter (fun t => ¬ t.2.1 = Direction.Fwd)).map (fun t => (m.get_l t.1).width)).sum

/-- The thickness argument recorded in an arrow polygon. -/
def arrowThickness : Polygon → Option ℚ
  | Polygon.arrow _ th _ => some th
  | _ => none

/- Shared concrete fixtures for witnesses. -/

/-- A 10 m straight eastward polyline from the origin. -/
def eastPL (len : ℚ) : PolyLine := ⟨⟨0, 0⟩, [⟨⟨1, 0⟩, len⟩]⟩

/-- A plain 2 m wide lane running 10 m east, from intersection 0 to
intersection 1, on road 0. -/
def exLane : Lane := ⟨2, eastPL 10, 0, 1, 0⟩

/-- A plain road. -/
def exRoad : Road :=
  ⟨0, 1, eastPL 10, [(0, Direction.Fwd, LaneType.Driving), (1, Direction.Back, LaneType.Driving)],
    7, eastPL 10⟩

/-- A plain intersection. -/
def exIntersection : Intersection := ⟨1, 11, [0], [1], [0], 0, false, none⟩

/-- A plain map built from the fixtures above. -/
def exMap : Map :=
  ⟨fun _ => exLane, fun _ => exRoad, fun _ => exIntersection, fun _ => [], DrivingSide.Right⟩

instance : Inhabited Seg := ⟨⟨⟨1, 0⟩, 0⟩⟩

/-- The crosswalk tile spacing: 0.6 times the sidewalk thickness. -/
def crosswalkTileEvery (w : ℚ) : ℚ := w * (6 / 10)

/-- The available crossing length: the middle segment length minus the
boundary margin (one sidewalk thickness) at each end. -/
def crosswalkAvail (w segLen : ℚ) : ℚ := segLen - w * 2

/-- The num_markings count of make_crosswalk: the floor of available
length over tile spacing. -/
def crosswalkNum (w segLen : ℚ) : ℕ :=
  (⌊crosswalkAvail w segLen / crosswalkTileEvery w⌋).toNat

/-- The first dist_along of the stripe loop: the boundary margin plus half
the leftover remainder. -/
def crosswalkFirst (w segLen : ℚ) : ℚ :=
  w + (crosswalkAvail w segLen - crosswalkTileEvery w * (crosswalkNum w segLen : ℚ)) / 2

/-- The successive dist_along offsets of the stripe loop. -/
def crosswalkOffsets (d T : ℚ) (n : ℕ) : List ℚ :=
  (List.range n).map (fun (k : ℕ) => d + T * (k : ℚ))

/-- One stripe pair (every line is a double) at a given dist_along. -/
def stripePair (line : Line) (col : Color) (c width d : ℚ) : List (Color × Polygon) :=
  [(col, (perp_line ⟨line.unbounded_dist_along d, line.dir, 1⟩ width).make_polygons c),
    (col, (perp_line ⟨line.unbounded_dist_along (d + 2 * c), line.dir, 1⟩ width).make_polygons c)]

/-- The nine (node id, way id) pairs of the rainbow-crosswalk allow-list,
as the spec states them. -/
def rainbowPairs : List (ℕ × ℕ) :=
  [(53073255, 428246441), (53073255, 332601014), (53073254, 6447455), (53073254, 607690679),
    (53168934, 6456052), (53200834, 6456052), (53068795, 607691081), (53068795, 65588105),
    (53068794, 65588105)]

/-- A plain color scheme. -/
def exCS : ColorScheme := ⟨fun _ => Color.styled 0⟩

/-- A crosswalk turn across the 10 m eastward geometry. -/
def crosswalkTurn : Turn := ⟨⟨0, 1, 1⟩, TurnType.Crosswalk, eastPL 10⟩

/-- A map whose (node, way) origin pair is the first allow-list entry. -/
def rainbowMap : Map :=
  { exMap with
    get_i := fun _ => { exIntersection with orig_node := 53073255 }
    get_r := fun _ => { exRoad with orig_osm_way := 428246441 } }

/- ------------------------------------------------------------------ -/
/- Theorems. -/

/-- The literal match of make_rainbow_crosswalk accepts exactly the nine
listed (node, way) pairs. -/
theorem rainbowAllowListed_iff (n w : ℕ) :
    rainbowAllowListed n w = true ↔ (n, w) ∈ rainbowPairs := by
  constructor
  · intro h
    unfold rainbowAllowListed at h
    split at h
    · simp [rainbowPairs]
    · simp [rainbowPairs]
    · simp [rainbowPairs]
    · simp [rainbowPairs]
    · simp [rainbowPairs]
    · simp [rainbowPairs]
    · simp [rainbowPairs]
    · simp [rainbowPairs]
    · simp [rainbowPairs]
    · exact absurd h (by simp)
  · intro h
    fin_cases h <;> rfl

/-- The width-summing fold of calculate_border_arrows accumulates exactly
the per-direction width sums. -/
theorem borderFold_eq (m : Map) (l : List (ℕ × Direction × LaneType)) (a b : ℚ) :
    l.foldl
      (fun (acc : ℚ × ℚ) t =>
        if t.2.1 = Direction.Fwd then (acc.1 + (m.get_l t.1).width, acc.2)
        else (acc.1, acc.2 + (m.get_l t.1).width))
      (a, b) =
    (a + ((l.filter (fun t => t.2.1 = Direction.Fwd)).map (fun t => (m.get_l t.1).width)).sum,
     b + ((l.filter (fun t => ¬ t.2.1 = Direction.Fwd)).map (fun t => (m.get_l t.1).width)).sum) := by
  induction l generalizing a b with
  | nil => simp
  | cons t rest ih =>
    by_cases h : t.2.1 = Direction.Fwd <;>
      simp [List.filter_cons, h, ih, add_assoc]

/-- C7: calculate_border_arrows emits zero arrow polygons when the
intersection has neither incoming nor outgoing lanes, exactly one when
only one of the two sets is non-empty, and two when both are non-empty;
each arrow polygon records a width equal to one third of the summed lane
width of its travel direction (the backward sum for the road end at the
intersection, the forward sum otherwise, and mirrored for the
void-bound arrow). -/
theorem border_arrows_count_and_width (i : Intersection) (r : Road) (m : Map) :
    (calculate_border_arrows i r m).length =
      (if i.outgoing_lanes.isEmpty then 0 else 1) +
        (if i.incoming_lanes.isEmpty then 0 else 1) ∧
    (calculate_border_arrows i r m).map arrowThickness =
      (if i.outgoing_lanes.isEmpty then []
        else [some ((if r.dst_i = i.id then backWidthSum r m else fwdWidthSum r m) / 3)]) ++
      (if i.incoming_lanes.isEmpty then []
        else [some ((if r.dst_i = i.id then fwdWidthSum r m else backWidthSum r m) / 3)]) := by
  unfold calculate_border_arrows
  rw [borderFold_eq]
  constructor
  · by_cases h1 : i.outgoing_lanes.isEmpty <;>
      by_cases h2 : i.incoming_lanes.isEmpty <;>
        by_cases h3 : r.dst_i = i.id <;>
          simp [h1, h2, h3]
  · by_cases h1 : i.outgoing_lanes.isEmpty <;>
      by_cases h2 : i.incoming_lanes.isEmpty <;>
        by_cases h3 : r.dst_i = i.id <;>
          simp [h1, h2, h3, arrowThickness, PolyLine.make_arrow, fwdWidthSum, backWidthSum]

/-- C8: an edge of the intersection's outer boundary ring is emitted by
get_unzoomed_outline (as an independent one-segment polyline, here an
endpoint pair) if and only if it does not match, in either point order and
within the 0.1 m per-endpoint tolerance, any connected road's
(left edge, right edge) point pair taken at whichever end of the road
touches this intersection; the output is the unmerged filtered edge
list. -/
theorem unzoomed_outline_mem_iff (i : Intersection) (m : Map) (ring : List Pt2D)
    (hring : i.polygon_ring = some ring) (e : Pt2D × Pt2D) :
    e ∈ get_unzoomed_outline i m ↔
      e ∈ windowsPair ring ∧
        ¬ ∃ p ∈ i.roads.map (roadEdgePair i m), approx_eq_pairs e p = true := by
  simp only [get_unzoomed_outline, hring, List.mem_filter, Bool.not_eq_true', List.any_eq_false]
  constructor
  · rintro ⟨h1, h2⟩
    exact ⟨h1, by rintro ⟨p, hp, hap⟩; exact absurd hap (by simp [h2 p hp])⟩
  · rintro ⟨h1, h2⟩
    refine ⟨h1, fun p hp => ?_⟩
    by_contra hc
    exact h2 ⟨p, hp, by simpa using hc⟩

/-- Witness for C8 at a concrete square boundary ring with no connected
roads: the first ring edge is emitted. -/
theorem unzoomed_outline_mem_iff_witness :
    (⟨1, 11, [], [], [], 0, false,
        some [⟨0, 0⟩, ⟨1, 0⟩, ⟨1, 1⟩, ⟨0, 1⟩, ⟨0, 0⟩]⟩ : Intersection).polygon_ring =
      some [⟨0, 0⟩, ⟨1, 0⟩, ⟨1, 1⟩, ⟨0, 1⟩, ⟨0, 0⟩] ∧
    ((⟨0, 0⟩, ⟨1, 0⟩) ∈
        get_unzoomed_outline
          ⟨1, 11, [], [], [], 0, false, some [⟨0, 0⟩, ⟨1, 0⟩, ⟨1, 1⟩, ⟨0, 1⟩, ⟨0, 0⟩]⟩ exMap ↔
      ((⟨0, 0⟩, ⟨1, 0⟩) : Pt2D × Pt2D) ∈
          windowsPair [⟨0, 0⟩, ⟨1, 0⟩, ⟨1, 1⟩, ⟨0, 1⟩, ⟨0, 0⟩] ∧
        ¬ ∃ p ∈ ([] : List ℕ).map
            (roadEdgePair ⟨1, 11, [], [], [], 0, false,
              some [⟨0, 0⟩, ⟨1, 0⟩, ⟨1, 1⟩, ⟨0, 1⟩, ⟨0, 0⟩]⟩ exMap),
          approx_eq_pairs (⟨0, 0⟩, ⟨1, 0⟩) p = true) :=
  ⟨rfl, unzoomed_outline_mem_iff _ exMap _ rfl _⟩

/-- Unfolding the offset list one tile at a time. -/
theorem crosswalkOffsets_succ (d T : ℚ) (n : ℕ) :
    crosswalkOffsets d T (n + 1) = d :: crosswalkOffsets (d + T) T n := by
  simp only [crosswalkOffsets, List.range_succ_eq_map, List.map_cons, List.map_map]
  congr 1
  · push_cast
    ring
  · refine List.map_congr_left (fun k _ => ?_)
    simp only [Function.comp_apply]
    push_cast
    ring

/-- The stripe loop succeeds and produces exactly the stripe pairs at the
successive offsets, as long as every offset keeps both dist_along calls
inside the crossing line. -/
theorem crosswalkLoop_eq (line : Line) (col : Color) (c T width : ℚ) (hc : 0 ≤ c) (n : ℕ) :
    ∀ d : ℚ, (∀ k : ℕ, k < n → 0 ≤ d + T * (k : ℚ) ∧ d + T * (k : ℚ) + 2 * c ≤ line.len) →
      crosswalkLoop line col c T width n d =
        some ((crosswalkOffsets d T n).flatMap (stripePair line col c width)) := by
  induction n with
  | zero => intro d _; simp [crosswalkLoop, crosswalkOffsets]
  | succ n ih =>
    intro d hb
    have h0 := hb 0 (Nat.succ_pos n)
    simp only [Nat.cast_zero, mul_zero, add_zero] at h0
    have hd1 : line.dist_along d = some (line.pt1.add (Pt2D.smul d line.dir)) := by
      rw [Line.dist_along, if_pos ⟨h0.1, le_trans (by linarith) h0.2⟩]
    have hd2 : line.dist_along (d + 2 * c) =
        some (line.pt1.add (Pt2D.smul (d + 2 * c) line.dir)) := by
      rw [Line.dist_along, if_pos ⟨by linarith [h0.1], h0.2⟩]
    have hrec := ih (d + T) (fun k hk => by
      have := hb (k + 1) (Nat.succ_lt_succ hk)
      push_cast at this ⊢
      constructor
      · linarith [this.1]
      · linarith [this.2])
    rw [crosswalkLoop, hd1, hd2, hrec, crosswalkOffsets_succ]
    simp [stripePair, List.flatMap_cons, Line.unbounded_dist_along]

/-- A polyline always has one more point than it has segments. -/
theorem pointsFrom_length (p : Pt2D) (l : List Seg) :
    (pointsFrom p l).length = l.length + 1 := by
  induction l generalizing p with
  | nil => simp [pointsFrom]
  | cons s rest ih => simp [pointsFrom, ih]

/-- Every stripe offset of the crosswalk loop keeps both dist_along calls
inside the crossing segment. -/
theorem crosswalk_bounds (w c segLen : ℚ) (hw : 0 < w) (_hc : 0 ≤ c) (hcw : 2 * c ≤ w)
    (hL : 0 < crosswalkAvail w segLen) :
    ∀ k : ℕ, k < crosswalkNum w segLen + 1 →
      0 ≤ crosswalkFirst w segLen + crosswalkTileEvery w * (k : ℚ) ∧
      crosswalkFirst w segLen + crosswalkTileEvery w * (k : ℚ) + 2 * c ≤ segLen := by
  intro k hk
  have hT : 0 < crosswalkTileEvery w := by
    unfold crosswalkTileEvery; positivity
  have hfloor : (0 : ℤ) ≤ ⌊crosswalkAvail w segLen / crosswalkTileEvery w⌋ := by
    apply Int.floor_nonneg.2
    positivity
  have hcast : ((crosswalkNum w segLen : ℤ) : ℚ) = (⌊crosswalkAvail w segLen / crosswalkTileEvery w⌋ : ℚ) := by
    unfold crosswalkNum
    rw [Int.toNat_of_nonneg hfloor]
  have hTn : crosswalkTileEvery w * (crosswalkNum w segLen : ℚ) ≤ crosswalkAvail w segLen := by
    have h1 : ((crosswalkNum w segLen : ℚ)) ≤ crosswalkAvail w segLen / crosswalkTileEvery w := by
      rw [show ((crosswalkNum w segLen : ℚ)) = ((crosswalkNum w segLen : ℤ) : ℚ) by push_cast; ring,
        hcast]
      exact Int.floor_le _
    calc crosswalkTileEvery w * (crosswalkNum w segLen : ℚ)
        ≤ crosswalkTileEvery w * (crosswalkAvail w segLen / crosswalkTileEvery w) := by
          exact mul_le_mul_of_nonneg_left h1 (le_of_lt hT)
      _ = crosswalkAvail w segLen := by field_simp
  have hkn : (k : ℚ) ≤ (crosswalkNum w segLen : ℚ) := by
    exact_mod_cast Nat.lt_succ_iff.1 hk
  have hTk : crosswalkTileEvery w * (k : ℚ) ≤ crosswalkTileEvery w * (crosswalkNum w segLen : ℚ) :=
    mul_le_mul_of_nonneg_left hkn (le_of_lt hT)
  have hfirst : w ≤ crosswalkFirst w segLen := by
    unfold crosswalkFirst
    linarith [hTn]
  have hk0 : 0 ≤ crosswalkTileEvery w * (k : ℚ) := by positivity
  constructor
  · linarith
  · have hup : crosswalkFirst w segLen + crosswalkTileEvery w * (crosswalkNum w segLen : ℚ) =
        w + (crosswalkAvail w segLen + crosswalkTileEvery w * (crosswalkNum w segLen : ℚ)) / 2 := by
      unfold crosswalkFirst
      ring
    have hsl : crosswalkAvail w segLen = segLen - w * 2 := rfl
    linarith [hTn, hTk]

/-- C3: stripe generation of make_crosswalk (the standard path, lines
469-517) never hits a failing expect (never panics): for any turn it
returns a batch, and when the geometry has fewer than 3 points or the
middle segment's available length is non-positive the batch is empty (the
silent skip). The sidewalk and crosswalk-line thickness constants
(external to the sampled sources) are assumed nonnegative with the line
gap at most half the sidewalk thickness, as their real values satisfy. -/
theorem crosswalk_never_panics (w c : ℚ) (hw : 0 < w) (hc : 0 ≤ c) (hcw : 2 * c ≤ w)
    (cs : ColorScheme) (m : Map) (t : Turn) :
    make_crosswalk_std w c cs m t ≠ none ∧
    (t.geom.points.length < 3 → make_crosswalk_std w c cs m t = some []) ∧
    ((t.geom.segs.getD 1 default).len - 2 * w ≤ 0 → make_crosswalk_std w c cs m t = some []) := by
  rcases hsegs : t.geom.segs with _ | ⟨s0, _ | ⟨s1, rest⟩⟩
  · refine ⟨by simp [make_crosswalk_std, hsegs], fun _ => by simp [make_crosswalk_std, hsegs],
      fun _ => by simp [make_crosswalk_std, hsegs]⟩
  · refine ⟨by simp [make_crosswalk_std, hsegs], fun _ => by simp [make_crosswalk_std, hsegs],
      fun _ => by simp [make_crosswalk_std, hsegs]⟩
  · have hpts : ¬ t.geom.points.length < 3 := by
      rw [PolyLine.points, pointsFrom_length, hsegs]
      simp
    by_cases hε : s1.len ≤ EPSILON_DIST
    · have hstd : make_crosswalk_std w c cs m t = some [] := by
        simp [make_crosswalk_std, hsegs, Line.new, hε]
      exact ⟨by simp [hstd], fun h => absurd h hpts, fun _ => hstd⟩
    · by_cases hL : 0 < s1.len - w * 2
      · have hloop := crosswalkLoop_eq
          ⟨t.geom.points.getD 1 default, s1.dir, s1.len⟩
          (cs.general_road_marking (m.get_i t.id.parent).rank) c (crosswalkTileEvery w) w hc
          (crosswalkNum w s1.len + 1) (crosswalkFirst w s1.len)
          (crosswalk_bounds w c s1.len hw hc hcw hL)
        have hstd : make_crosswalk_std w c cs m t =
            crosswalkLoop ⟨t.geom.points.getD 1 default, s1.dir, s1.len⟩
              (cs.general_road_marking (m.get_i t.id.parent).rank) c (crosswalkTileEvery w) w
              (crosswalkNum w s1.len + 1) (crosswalkFirst w s1.len) := by
          simp [make_crosswalk_std, hsegs, Line.new, hε, hL, crosswalkTileEvery, crosswalkNum,
            crosswalkFirst, crosswalkAvail]
        refine ⟨?_, fun h => absurd h hpts, fun h => ?_⟩
        · rw [hstd, hloop]
          simp
        · simp only [List.getD_cons_succ, List.getD_cons_zero] at h
          linarith
      · have hstd : make_crosswalk_std w c cs m t = some [] := by
          simp [make_crosswalk_std, hsegs, Line.new, hε, hL]
        exact ⟨by simp [hstd], fun h => absurd h hpts, fun _ => hstd⟩

/-- Witness for C3 on the one-segment (two point) crossing geometry:
parameters 0.5 m and 0.15 m satisfy the hypotheses, and the squished
geometry yields an empty batch rather than a failure. -/
theorem crosswalk_never_panics_witness :
    ((0 : ℚ) < 1 / 2 ∧ (0 : ℚ) ≤ 3 / 20 ∧ 2 * (3 / 20 : ℚ) ≤ 1 / 2) ∧
    (make_crosswalk_std (1 / 2) (3 / 20) exCS exMap crosswalkTurn ≠ none ∧
      (crosswalkTurn.geom.points.length < 3 →
        make_crosswalk_std (1 / 2) (3 / 20) exCS exMap crosswalkTurn = some []) ∧
      ((crosswalkTurn.geom.segs.getD 1 default).len - 2 * (1 / 2) ≤ 0 →
        make_crosswalk_std (1 / 2) (3 / 20) exCS exMap crosswalkTurn = some [])) ∧
    make_crosswalk_std (1 / 2) (3 / 20) exCS exMap crosswalkTurn = some [] := by
  have h := crosswalk_never_panics (1 / 2) (3 / 20) (by norm_num) (by norm_num) (by norm_num)
    exCS exMap crosswalkTurn
  refine ⟨⟨by norm_num, by norm_num, by norm_num⟩, h, h.2.1 ?_⟩
  simp [crosswalkTurn, eastPL, PolyLine.points, pointsFrom]

/-- For a crossing with at least 3 geometry points, positive available
length and a (node, way) pair outside the rainbow allow-list,
make_crosswalk produces exactly the stripe pairs at the successive
crosswalk offsets. -/
theorem make_crosswalk_eq_stripes (w c : ℚ) (hw : 0 < w) (hc : 0 ≤ c) (hcw : 2 * c ≤ w)
    (hεw : EPSILON_DIST ≤ 2 * w) (cs : ColorScheme) (m : Map) (t : Turn)
    (s0 s1 : Seg) (rest : List Seg) (hsegs : t.geom.segs = s0 :: s1 :: rest)
    (hL : 0 < crosswalkAvail w s1.len)
    (hnr : ((m.get_i t.id.parent).orig_node, (m.get_parent t.id.src).orig_osm_way) ∉ rainbowPairs) :
    make_crosswalk w c cs m t =
      some ((crosswalkOffsets (crosswalkFirst w s1.len) (crosswalkTileEvery w)
          (crosswalkNum w s1.len + 1)).flatMap
        (stripePair ⟨t.geom.points.getD 1 default, s1.dir, s1.len⟩
          (cs.general_road_marking (m.get_i t.id.parent).rank) c w)) := by
  have hL2 : 0 < s1.len - w * 2 := hL
  have hε : ¬ s1.len ≤ EPSILON_DIST := by
    unfold crosswalkAvail at hL
    push_neg
    linarith
  have hrb : make_rainbow_crosswalk m t = none := by
    unfold make_rainbow_crosswalk
    have h : rainbowAllowListed (m.get_i t.id.parent).orig_node
        (m.get_parent t.id.src).orig_osm_way = false := by
      by_contra hcon
      exact hnr ((rainbowAllowListed_iff _ _).1 (by simpa using hcon))
    simp [h]
  have hloop := crosswalkLoop_eq
    ⟨t.geom.points.getD 1 default, s1.dir, s1.len⟩
    (cs.general_road_marking (m.get_i t.id.parent).rank) c (crosswalkTileEvery w) w hc
    (crosswalkNum w s1.len + 1) (crosswalkFirst w s1.len)
    (crosswalk_bounds w c s1.len hw hc hcw hL)
  have hstd : make_crosswalk_std w c cs m t =
      crosswalkLoop ⟨t.geom.points.getD 1 default, s1.dir, s1.len⟩
        (cs.general_road_marking (m.get_i t.id.parent).rank) c (crosswalkTileEvery w) w
        (crosswalkNum w s1.len + 1) (crosswalkFirst w s1.len) := by
    simp [make_crosswalk_std, hsegs, Line.new, hε, hL2, crosswalkTileEvery, crosswalkNum,
      crosswalkFirst, crosswalkAvail]
  unfold make_crosswalk
  rw [hrb, hstd, hloop]

/-- C1 (amended): for a crossing with at least 3 geometry points and
positive available length L, make_crosswalk emits exactly
floor(L / tile_spacing) + 1 stripe pairs (one more than the claimed
floor(L / tile_spacing)), at offsets spaced one tile apart; the first and
last offsets sum to the middle segment's length, i.e. they are exactly
symmetric around the segment midpoint. -/
theorem crosswalk_stripe_pairs (w c : ℚ) (hw : 0 < w) (hc : 0 ≤ c) (hcw : 2 * c ≤ w)
    (hεw : EPSILON_DIST ≤ 2 * w) (cs : ColorScheme) (m : Map) (t : Turn)
    (s0 s1 : Seg) (rest : List Seg) (hsegs : t.geom.segs = s0 :: s1 :: rest)
    (hL : 0 < crosswalkAvail w s1.len)
    (hnr : ((m.get_i t.id.parent).orig_node, (m.get_parent t.id.src).orig_osm_way) ∉ rainbowPairs) :
    make_crosswalk w c cs m t =
      some ((crosswalkOffsets (crosswalkFirst w s1.len) (crosswalkTileEvery w)
          (crosswalkNum w s1.len + 1)).flatMap
        (stripePair ⟨t.geom.points.getD 1 default, s1.dir, s1.len⟩
          (cs.general_road_marking (m.get_i t.id.parent).rank) c w)) ∧
    (crosswalkOffsets (crosswalkFirst w s1.len) (crosswalkTileEvery w)
        (crosswalkNum w s1.len + 1)).length = crosswalkNum w s1.len + 1 ∧
    crosswalkFirst w s1.len +
        (crosswalkFirst w s1.len + crosswalkTileEvery w * (crosswalkNum w s1.len : ℚ)) = s1.len := by
  refine ⟨make_crosswalk_eq_stripes w c hw hc hcw hεw cs m t s0 s1 rest hsegs hL hnr,
    by simp [crosswalkOffsets], ?_⟩
  unfold crosswalkFirst crosswalkAvail crosswalkTileEvery
  ring

/-- A crossing turn whose geometry has three points, with a 2 m middle
segment. -/
def crossTurn3 : Turn :=
  ⟨⟨0, 1, 1⟩, TurnType.Crosswalk, ⟨⟨0, 0⟩, [⟨⟨1, 0⟩, 1⟩, ⟨⟨1, 0⟩, 2⟩]⟩⟩

/-- Counterexample to C1 as stated: with sidewalk thickness 0.5 m the
available length is L = 2 - 2*0.5 = 1 m and the tile spacing is T = 0.3 m,
so the claim predicts floor(L/T) = 3 stripe pairs (6 stripe polygons), but
make_crosswalk emits 8 stripe polygons, i.e. 4 pairs. -/
theorem crosswalk_stripe_pairs_counterexample :
    (make_crosswalk (1 / 2) (3 / 20) exCS exMap crossTurn3).map List.length = some 8 ∧
    crosswalkNum (1 / 2) 2 = 3 ∧ (8 : ℕ) ≠ 2 * 3 := by
  have h := make_crosswalk_eq_stripes (1 / 2) (3 / 20) (by norm_num) (by norm_num) (by norm_num)
    (by norm_num [EPSILON_DIST]) exCS exMap crossTurn3 ⟨⟨1, 0⟩, 1⟩ ⟨⟨1, 0⟩, 2⟩ [] rfl
    (by norm_num [crosswalkAvail]) (by decide)
  have hlen : (⟨⟨1, 0⟩, 2⟩ : Seg).len = 2 := rfl
  rw [hlen] at h
  have hn3 : crosswalkNum (1 / 2) 2 = 3 := by
    norm_num [crosswalkNum, crosswalkAvail, crosswalkTileEvery]
    decide
  refine ⟨?_, hn3, by norm_num⟩
  rw [h, hn3]
  simp only [crosswalkOffsets, show (3 : ℕ) + 1 = 4 from rfl,
    show List.range 4 = [0, 1, 2, 3] from by decide]
  simp [stripePair]

/-- Witness for C1 (amended) on the same concrete crossing: 4 = 3 + 1
stripe pairs at offsets summing to the 2 m segment length. -/
theorem crosswalk_stripe_pairs_witness :
    make_crosswalk (1 / 2) (3 / 20) exCS exMap crossTurn3 =
      some ((crosswalkOffsets (crosswalkFirst (1 / 2) 2) (crosswalkTileEvery (1 / 2))
          (crosswalkNum (1 / 2) 2 + 1)).flatMap
        (stripePair ⟨crossTurn3.geom.points.getD 1 default, ⟨1, 0⟩, 2⟩
          (exCS.general_road_marking (exMap.get_i crossTurn3.id.parent).rank) (3 / 20) (1 / 2))) ∧
    (crosswalkOffsets (crosswalkFirst (1 / 2) 2) (crosswalkTileEvery (1 / 2))
        (crosswalkNum (1 / 2) 2 + 1)).length = crosswalkNum (1 / 2) 2 + 1 ∧
    crosswalkFirst (1 / 2) 2 +
        (crosswalkFirst (1 / 2) 2 + crosswalkTileEvery (1 / 2) * (crosswalkNum (1 / 2) 2 : ℚ)) = 2 :=
  crosswalk_stripe_pairs (1 / 2) (3 / 20) (by norm_num) (by norm_num) (by norm_num)
    (by norm_num [EPSILON_DIST]) exCS exMap crossTurn3 ⟨⟨1, 0⟩, 1⟩ ⟨⟨1, 0⟩, 2⟩ [] rfl
    (by norm_num [crosswalkAvail]) (by decide)

/-- C6: make_rainbow_crosswalk renders its band pattern exactly when the
(origin node id of the parent intersection, origin way id of the source
lane's parent road) pair is in the fixed nine-entry allow-list; any
matched batch is colored in order white, red, orange, yellow, green,
blue, violet, white; and every pair not in the list (near misses
included) falls through to the standard striping path of
make_crosswalk. -/
theorem rainbow_crosswalk_allowlist (m : Map) (t : Turn) (st clt : ℚ) (cs : ColorScheme) :
    ((make_rainbow_crosswalk m t).isSome ↔
      ((m.get_i t.id.parent).orig_node, (m.get_parent t.id.src).orig_osm_way) ∈ rainbowPairs) ∧
    (∀ batch, make_rainbow_crosswalk m t = some batch →
      batch.map Prod.fst =
        [Color.WHITE, Color.RED, Color.ORANGE, Color.YELLOW, Color.GREEN, Color.BLUE,
          Color.hexColor "#8B00FF", Color.WHITE]) ∧
    (((m.get_i t.id.parent).orig_node, (m.get_parent t.id.src).orig_osm_way) ∉ rainbowPairs →
      make_crosswalk st clt cs m t = make_crosswalk_std st clt cs m t) := by
  refine ⟨?_, ?_, ?_⟩
  · rw [← rainbowAllowListed_iff]
    by_cases h : rainbowAllowListed (m.get_i t.id.parent).orig_node
        (m.get_parent t.id.src).orig_osm_way = true
    · simp [make_rainbow_crosswalk, h]
    · simp [make_rainbow_crosswalk, h]
  · intro batch hb
    by_cases h : rainbowAllowListed (m.get_i t.id.parent).orig_node
        (m.get_parent t.id.src).orig_osm_way = true
    · simp only [make_rainbow_crosswalk, h, if_true, Option.some_inj] at hb
      subst hb
      rfl
    · simp [make_rainbow_crosswalk, h] at hb
  · intro hnot
    have h : rainbowAllowListed (m.get_i t.id.parent).orig_node
        (m.get_parent t.id.src).orig_osm_way = false := by
      by_contra hc
      exact hnot ((rainbowAllowListed_iff _ _).1 (by simpa using hc))
    unfold make_crosswalk
    have hrb : make_rainbow_crosswalk m t = none := by
      unfold make_rainbow_crosswalk
      simp [h]
    rw [hrb]

/-- Witness for C6: the first allow-list pair matches and produces the
rainbow palette, while the plain fixture map falls through. -/
theorem rainbow_crosswalk_allowlist_witness :
    (((make_rainbow_crosswalk rainbowMap crosswalkTurn).isSome ↔
        (((rainbowMap.get_i crosswalkTurn.id.parent).orig_node,
          (rainbowMap.get_parent crosswalkTurn.id.src).orig_osm_way) ∈ rainbowPairs)) ∧
      (make_rainbow_crosswalk rainbowMap crosswalkTurn).isSome = true) ∧
    make_crosswalk (1 / 2) (3 / 20) exCS exMap crosswalkTurn =
      make_crosswalk_std (1 / 2) (3 / 20) exCS exMap crosswalkTurn :=
  ⟨⟨(rainbow_crosswalk_allowlist rainbowMap crosswalkTurn (1 / 2) (3 / 20) exCS).1, rfl⟩,
    (rainbow_crosswalk_allowlist exMap crosswalkTurn (1 / 2) (3 / 20) exCS).2.2 (by decide)⟩

/-- Components of walking a segment list commute with appending. -/
theorem walkSegs_append (p : Pt2D) (l1 l2 : List Seg) :
    walkSegs p (l1 ++ l2) = walkSegs (walkSegs p l1) l2 := by
  induction l1 generalizing p with
  | nil => simp [walkSegs]
  | cons s rest ih => simp [walkSegs, ih]

/-- Cutting zero length off the front of a polyline is the identity. -/
theorem cutFront_zero (p : Pt2D) (l : List Seg) : cutFront 0 p l = (p, l) := by
  cases l <;> simp [cutFront]

/-- The last segment of a positive-length segment list is no longer than
the total. -/
theorem getLast_le_sum (l : List Seg) (s : Seg) (hpos : ∀ x ∈ l, 0 < x.len)
    (hl : l.getLast? = some s) : s.len ≤ (l.map Seg.len).sum := by
  induction l with
  | nil => simp at hl
  | cons x xs ih =>
    cases xs with
    | nil =>
      simp at hl
      simp [hl]
    | cons y ys =>
      rw [List.getLast?_cons_cons] at hl
      have h := ih (fun a ha => hpos a (List.mem_cons_of_mem x ha)) hl
      have hx := hpos x (List.mem_cons_self x (y :: ys))
      simp only [List.map_cons, List.sum_cons] at h ⊢
      linarith

/-- Keeping all but the last t of a positive-length segment list trims
only the last segment. -/
theorem cutTo_trim (l : List Seg) (s : Seg) (t : ℚ) (hpos : ∀ x ∈ l, 0 < x.len)
    (hl : l.getLast? = some s) (ht0 : 0 < t) (hts : t < s.len) :
    cutTo ((l.map Seg.len).sum - t) l = l.dropLast ++ [⟨s.dir, s.len - t⟩] := by
  induction l with
  | nil => simp at hl
  | cons x xs ih =>
    cases xs with
    | nil =>
      simp at hl
      subst hl
      simp only [List.map_cons, List.map_nil, List.sum_cons, List.sum_nil, add_zero]
      rw [cutTo]
      rw [if_neg (by linarith), if_pos (by linarith)]
      simp
    | cons y ys =>
      rw [List.getLast?_cons_cons] at hl
      have hsum := getLast_le_sum (y :: ys) s
        (fun a ha => hpos a (List.mem_cons_of_mem x ha)) hl
      have hx := hpos x (List.mem_cons_self x (y :: ys))
      have hih := ih (fun a ha => hpos a (List.mem_cons_of_mem x ha)) hl
      simp only [List.map_cons, List.sum_cons] at hsum ⊢
      rw [cutTo]
      rw [if_neg (by push_neg; linarith), if_neg (by push_neg; linarith)]
      have harg : x.len + (y.len + (List.map Seg.len ys).sum) - t - x.len
          = (List.map Seg.len (y :: ys)).sum - t := by
        simp only [List.map_cons, List.sum_cons]
        ring
      rw [harg, hih]
      simp

/-- Slicing a polyline from 0 to its length minus t trims t off its last
segment. -/
theorem exact_slice_trim_last (pl : PolyLine) (s : Seg) (t : ℚ)
    (hpos : ∀ x ∈ pl.segs, 0 < x.len) (hlast : pl.segs.getLast? = some s)
    (ht0 : 0 < t) (hts : t < s.len) :
    pl.exact_slice 0 (pl.length - t) =
      ⟨pl.start, pl.segs.dropLast ++ [⟨s.dir, s.len - t⟩]⟩ := by
  simp only [PolyLine.exact_slice, cutFront_zero]
  rw [show pl.length - t - 0 = (pl.segs.map Seg.len).sum - t by
    simp [PolyLine.length]]
  rw [cutTo_trim pl.segs s t hpos hlast ht0 hts]

/-- The last line of a polyline ending in an explicit segment. -/
theorem last_line_append_single (st : Pt2D) (l : List Seg) (x : Seg) :
    (PolyLine.mk st (l ++ [x])).last_line = ⟨walkSegs st l, x.dir, x.len⟩ := by
  unfold PolyLine.last_line PolyLine.last_pt
  rw [List.getLast?_concat]
  rw [walkSegs_append]
  simp only [walkSegs]
  obtain ⟨a, b⟩ := walkSegs st l
  obtain ⟨dx, dy⟩ := x.dir
  simp [Pt2D.add, Pt2D.sub, Pt2D.smul]

/-- The center at which stop_sign_geom places the octagon, as the claim
describes it except for the shift amount: the lane endpoint pulled back
0.1 m along the final heading, then shifted sideways (right of the heading
for right-hand driving, left otherwise) by the given offset. -/
def stopSignCenter (edge_lane : Lane) (s : Seg) (side : DrivingSide) (offset : ℚ) : Pt2D :=
  ((edge_lane.lane_center_pts.last_pt).sub (Pt2D.smul (1 / 10) s.dir)).add
    (Pt2D.smul offset
      (if side = DrivingSide.Right then rightNormal s.dir else leftNormal s.dir))

/-- C2 (amended): for a stop-controlled approach whose edge lane is long
enough, stop_sign_geom takes the last segment of the centerline trimmed by
0.1 m and shifts it outward by the lane's full width (not half the width,
as claimed) — right of the heading under right-hand driving, left under
left-hand — and builds the octagon of fixed radius 1.0 m at that shifted
segment's endpoint, oriented by the segment's heading. -/
theorem stop_sign_octagon_full_width (ss : RoadWithStopSign) (m : Map) (s : Seg)
    (hpos : ∀ x ∈ (m.get_l ss.lane_closest_to_edge).lane_center_pts.segs, 0 < x.len)
    (hlast : (m.get_l ss.lane_closest_to_edge).lane_center_pts.segs.getLast? = some s)
    (hts : 1 / 10 < s.len)
    (hroom : ¬ ((m.get_l ss.lane_closest_to_edge).length - 1 / 10 ≤ EPSILON_DIST)) :
    ∃ pole : Polygon,
      stop_sign_geom ss m =
        some (make_octagon
          (stopSignCenter (m.get_l ss.lane_closest_to_edge) s m.driving_side
            (m.get_l ss.lane_closest_to_edge).width)
          1 s.dir, pole, s.dir) := by
  have hlastpt : (m.get_l ss.lane_closest_to_edge).lane_center_pts.last_pt =
      (walkSegs ((m.get_l ss.lane_closest_to_edge).lane_center_pts.start)
        ((m.get_l ss.lane_closest_to_edge).lane_center_pts.segs.dropLast)).add
        (Pt2D.smul s.len s.dir) := by
    unfold PolyLine.last_pt
    conv_lhs => rw [show (m.get_l ss.lane_closest_to_edge).lane_center_pts.segs =
      (m.get_l ss.lane_closest_to_edge).lane_center_pts.segs.dropLast ++ [s] from
        Eq.symm (List.dropLast_append_getLast? s (Option.mem_def.mpr hlast))]
    rw [walkSegs_append]
    simp [walkSegs]
  unfold stop_sign_geom
  simp only [Lane.length] at hroom ⊢
  rw [if_neg hroom]
  rw [exact_slice_trim_last (m.get_l ss.lane_closest_to_edge).lane_center_pts s (1 / 10)
    hpos hlast (by norm_num) hts]
  rw [last_line_append_single]
  cases hside : m.driving_side with
  | Right =>
    refine ⟨(poleLine (Line.shift_right ⟨walkSegs
      ((m.get_l ss.lane_closest_to_edge).lane_center_pts.start)
      ((m.get_l ss.lane_closest_to_edge).lane_center_pts.segs.dropLast), s.dir, s.len - 1 / 10⟩
      (m.get_l ss.lane_closest_to_edge).width)).make_polygons (3 / 10), ?_⟩
    simp only [hside, if_true, Option.some_inj, Prod.mk.injEq]
    refine ⟨?_, trivial, by simp [Line.shift_right]⟩
    have hdir : (Line.shift_right ⟨walkSegs ((m.get_l ss.lane_closest_to_edge).lane_center_pts.start)
        ((m.get_l ss.lane_closest_to_edge).lane_center_pts.segs.dropLast), s.dir, s.len - 1 / 10⟩
        (m.get_l ss.lane_closest_to_edge).width).dir = s.dir := rfl
    rw [hdir]
    congr 1
    unfold stopSignCenter Line.shift_right Line.pt2
    rw [hlastpt]
    obtain ⟨a, b⟩ := walkSegs ((m.get_l ss.lane_closest_to_edge).lane_center_pts.start)
      ((m.get_l ss.lane_closest_to_edge).lane_center_pts.segs.dropLast)
    obtain ⟨dx, dy⟩ := s.dir
    simp [Pt2D.add, Pt2D.sub, Pt2D.smul, rightNormal]
    constructor <;> ring
  | Left =>
    refine ⟨(poleLine (Line.shift_left ⟨walkSegs
      ((m.get_l ss.lane_closest_to_edge).lane_center_pts.start)
      ((m.get_l ss.lane_closest_to_edge).lane_center_pts.segs.dropLast), s.dir, s.len - 1 / 10⟩
      (m.get_l ss.lane_closest_to_edge).width)).make_polygons (3 / 10), ?_⟩
    simp only [hside, if_neg (by simp : ¬ DrivingSide.Left = DrivingSide.Right),
      Option.some_inj, Prod.mk.injEq]
    refine ⟨?_, trivial, by simp [Line.shift_left]⟩
    have hdir : (Line.shift_left ⟨walkSegs ((m.get_l ss.lane_closest_to_edge).lane_center_pts.start)
        ((m.get_l ss.lane_closest_to_edge).lane_center_pts.segs.dropLast), s.dir, s.len - 1 / 10⟩
        (m.get_l ss.lane_closest_to_edge).width).dir = s.dir := rfl
    rw [hdir]
    congr 1
    unfold stopSignCenter Line.shift_left Line.pt2
    rw [hlastpt]
    obtain ⟨a, b⟩ := walkSegs ((m.get_l ss.lane_closest_to_edge).lane_center_pts.start)
      ((m.get_l ss.lane_closest_to_edge).lane_center_pts.segs.dropLast)
    obtain ⟨dx, dy⟩ := s.dir
    simp [Pt2D.add, Pt2D.sub, Pt2D.smul, leftNormal]
    constructor <;> ring

/-- The octagon center recorded in a stop sign glyph result. -/
def octagonCenter : Option (Polygon × Polygon × Pt2D) → Option Pt2D
  | some (Polygon.octagonRing (p :: _), _, _) => some p.base
  | _ => none

/-- The placement the claim describes, word for word: the trimmed last
line shifted outward by HALF the lane's width. -/
def stopSignClaimedCenter (ss : RoadWithStopSign) (m : Map) : Pt2D :=
  let edge_lane := m.get_l ss.lane_closest_to_edge
  let ll := (edge_lane.lane_center_pts.exact_slice 0 (edge_lane.length - 1 / 10)).last_line
  let shifted :=
    if m.driving_side = DrivingSide.Right then ll.shift_right (edge_lane.width / 2)
    else ll.shift_left (edge_lane.width / 2)
  shifted.pt2

/-- Counterexample to C2 as stated: for the 2 m wide, 10 m long eastward
edge lane under right-hand driving, the octagon is centered at
(9.9, -2) — the trimmed endpoint shifted by the full 2 m width — while the
claimed half-width shift would center it at (9.9, -1). -/
theorem stop_sign_octagon_counterexample :
    octagonCenter (stop_sign_geom ⟨0⟩ exMap) = some ⟨99 / 10, -2⟩ ∧
    stopSignClaimedCenter ⟨0⟩ exMap = ⟨99 / 10, -1⟩ ∧
    (⟨99 / 10, -2⟩ : Pt2D) ≠ ⟨99 / 10, -1⟩ := by
  refine ⟨?_, ?_, by simp⟩
  · rw [stop_sign_geom]
    rw [if_neg (by norm_num [exMap, exLane, eastPL, Lane.length, PolyLine.length, EPSILON_DIST])]
    norm_num [exMap, exLane, eastPL, Lane.length, PolyLine.length, PolyLine.exact_slice,
      cutFront, cutTo, PolyLine.last_line, PolyLine.last_pt, walkSegs, Line.shift_right,
      Line.pt2, Pt2D.add, Pt2D.sub, Pt2D.smul, rightNormal, make_octagon, octagonCenter,
      show List.range 9 = [0, 1, 2, 3, 4, 5, 6, 7, 8] from by decide]
  · norm_num [stopSignClaimedCenter, exMap, exLane, eastPL, Lane.length, PolyLine.length,
      PolyLine.exact_slice, cutFront, cutTo, PolyLine.last_line, PolyLine.last_pt, walkSegs,
      Line.shift_right, Line.pt2, Pt2D.add, Pt2D.sub, Pt2D.smul, rightNormal]

/-- Witness for C2 (amended) on the same concrete lane: the hypotheses
hold and the octagon is placed at the full-width shift of the trimmed
endpoint. -/
theorem stop_sign_octagon_full_width_witness :
    ((1 : ℚ) / 10 < (⟨⟨1, 0⟩, 10⟩ : Seg).len) ∧
    (∃ pole : Polygon,
      stop_sign_geom ⟨0⟩ exMap =
        some (make_octagon
          (stopSignCenter (exMap.get_l (RoadWithStopSign.mk 0).lane_closest_to_edge)
            ⟨⟨1, 0⟩, 10⟩ exMap.driving_side
            (exMap.get_l (RoadWithStopSign.mk 0).lane_closest_to_edge).width)
          1 (⟨⟨1, 0⟩, 10⟩ : Seg).dir, pole, (⟨⟨1, 0⟩, 10⟩ : Seg).dir)) :=
  ⟨by norm_num,
    stop_sign_octagon_full_width ⟨0⟩ exMap ⟨⟨1, 0⟩, 10⟩
      (by intro x hx; simp [exMap, exLane, eastPL] at hx; simp [hx])
      rfl (by norm_num)
      (by norm_num [exMap, exLane, eastPL, Lane.length, PolyLine.length, EPSILON_DIST])⟩

/-- The wellformedness under which the external polyline shift cannot
fail: a nonempty segment list with no reversal at any joint (consecutive
directions equal or non-parallel). -/
def ShiftOK (pl : PolyLine) : Prop :=
  pl.segs ≠ [] ∧
    List.Chain' (fun s s2 => s.dir = s2.dir ∨ Pt2D.cross s.dir s2.dir ≠ 0) pl.segs

/-- The shift loop succeeds on every reversal-free segment list. -/
theorem shiftLoop_isSome (w : ℚ) (l : List Seg)
    (hch : List.Chain' (fun s s2 => s.dir = s2.dir ∨ Pt2D.cross s.dir s2.dir ≠ 0) l) :
    ∀ q p : Pt2D, (shiftLoop w q p l).isSome = true := by
  induction l with
  | nil => intro q p; simp [shiftLoop]
  | cons s rest ih =>
    cases rest with
    | nil => intro q p; simp [shiftLoop]
    | cons s2 rest2 =>
      intro q p
      have hrel : s.dir = s2.dir ∨ Pt2D.cross s.dir s2.dir ≠ 0 :=
        (List.chain'_cons.1 hch).1
      have hch2 := (List.chain'_cons.1 hch).2
      have hm : (miterPt w (p.add (Pt2D.smul s.len s.dir)) s.dir s2.dir).isSome = true := by
        rcases hrel with heq | hne
        · simp [miterPt, heq]
        · have hnz : ¬ s.dir = s2.dir ∨ True := Or.inr trivial
          by_cases heq : s.dir = s2.dir
          · simp [miterPt, heq]
          · simp [miterPt, heq, lineInter, hne]
      obtain ⟨mp, hmp⟩ := Option.isSome_iff_exists.1 hm
      have hrec := ih hch2 mp (p.add (Pt2D.smul s.len s.dir))
      obtain ⟨r, hr⟩ := Option.isSome_iff_exists.1 hrec
      simp [shiftLoop, hmp, hr]

/-- A reversal-free polyline shifts successfully in either direction. -/
theorem shift_right_isSome (pl : PolyLine) (w : ℚ) (hok : ShiftOK pl) :
    (pl.shift_right w).isSome = true := by
  obtain ⟨hne, hch⟩ := hok
  rcases hsegs : pl.segs with _ | ⟨s, rest⟩
  · exact absurd hsegs hne
  · have h := shiftLoop_isSome w (s :: rest) (hsegs ▸ hch)
      (pl.start.add (Pt2D.smul w (rightNormal s.dir))) pl.start
    obtain ⟨r, hr⟩ := Option.isSome_iff_exists.1 h
    simp [PolyLine.shift_right, hsegs, hr]

/-- An owned equal-width SharedSidewalkCorner turn with reversal-free
geometry always contributes a corner polygon. -/
theorem cornerPolyFor_owned_isSome (i : Intersection) (m : Map) (turn : Turn)
    (hssc : turn.turn_type = TurnType.SharedSidewalkCorner)
    (howned : (m.get_l turn.id.src).dst_i = i.id)
    (heq : (m.get_l turn.id.src).width = (m.get_l turn.id.dst).width)
    (hok : ShiftOK turn.geom) :
    (cornerPolyFor i m turn).isSome = true := by
  unfold cornerPolyFor
  rw [if_pos hssc, if_neg (by simp [howned])]
  by_cases hdead : i.roads.length = 1
  · simp [hdead]
  · rw [if_neg hdead, if_pos heq]
    have hsl := shift_right_isSome turn.geom (-((m.get_l turn.id.src).width / 2)) hok
    have hsr := shift_right_isSome turn.geom ((m.get_l turn.id.src).width / 2) hok
    obtain ⟨l1, hl1⟩ := Option.isSome_iff_exists.1 hsl
    obtain ⟨r1, hr1⟩ := Option.isSome_iff_exists.1 hsr
    simp [PolyLine.shift_left, hl1, hr1]

/-- A turn whose source lane does not end at this intersection contributes
nothing. -/
theorem cornerPolyFor_unowned_none (i : Intersection) (m : Map) (turn : Turn)
    (hunowned : ¬ (m.get_l turn.id.src).dst_i = i.id) :
    cornerPolyFor i m turn = none := by
  unfold cornerPolyFor
  by_cases hssc : turn.turn_type = TurnType.SharedSidewalkCorner
  · rw [if_pos hssc, if_pos hunowned]
  · rw [if_neg hssc]

/-- C5: calculate_corners produces a polygon for a SharedSidewalkCorner
turn only when the turn's source lane has its destination end at this
intersection; consequently, across the two mirrored turns of one physical
corner (whose lanes, by the sidewalk orientation convention of the map
model, have exactly one destination end at the intersection), exactly one
polygon is produced, never two. -/
theorem corners_ownership_unique (i : Intersection) (m : Map) (tA tB : Turn)
    (hA : tA.turn_type = TurnType.SharedSidewalkCorner)
    (hB : tB.turn_type = TurnType.SharedSidewalkCorner)
    (hm1 : tB.id.src = tA.id.dst) (hm2 : tB.id.dst = tA.id.src)
    (hxor : ((m.get_l tA.id.src).dst_i = i.id) ↔ ¬ ((m.get_l tB.id.src).dst_i = i.id))
    (heq : (m.get_l tA.id.src).width = (m.get_l tA.id.dst).width)
    (hokA : ShiftOK tA.geom) (hokB : ShiftOK tB.geom) :
    (∀ t : Turn, cornerPolyFor i m t ≠ none → (m.get_l t.id.src).dst_i = i.id) ∧
    (cornerPolyFor i m tA).toList.length + (cornerPolyFor i m tB).toList.length = 1 ∧
    calculate_corners i m =
      (if i.is_footway then [] else (m.turns_in i.id).filterMap (cornerPolyFor i m)) := by
  refine ⟨?_, ?_, rfl⟩
  · intro t h
    by_contra hun
    exact h (cornerPolyFor_unowned_none i m t hun)
  · by_cases hova : (m.get_l tA.id.src).dst_i = i.id
    · have hnb : ¬ (m.get_l tB.id.src).dst_i = i.id := hxor.1 hova
      have ha := cornerPolyFor_owned_isSome i m tA hA hova heq hokA
      obtain ⟨pa, hpa⟩ := Option.isSome_iff_exists.1 ha
      rw [hpa, cornerPolyFor_unowned_none i m tB hnb]
      simp
    · have hob : (m.get_l tB.id.src).dst_i = i.id := by
        by_contra hnb
        exact hova (hxor.2 hnb)
      have heqB : (m.get_l tB.id.src).width = (m.get_l tB.id.dst).width := by
        rw [hm1, hm2]
        exact heq.symm
      have hb := cornerPolyFor_owned_isSome i m tB hB hob heqB hokB
      obtain ⟨pb, hpb⟩ := Option.isSome_iff_exists.1 hb
      rw [hpb, cornerPolyFor_unowned_none i m tA hova]
      simp

/-- A second lane oriented away from intersection 1 (destination end at
intersection 0). -/
def exLaneOut : Lane := ⟨2, eastPL 10, 1, 0, 0⟩

/-- A map whose lane 0 ends at intersection 1 and whose other lanes start
there. -/
def cornerMap : Map :=
  { exMap with get_l := fun n => if n = 0 then exLane else exLaneOut }

/-- The mirrored pair of SharedSidewalkCorner turns between lanes 0 and 1
at intersection 1. -/
def cornerTurnA : Turn := ⟨⟨0, 1, 1⟩, TurnType.SharedSidewalkCorner, eastPL 10⟩

/-- The mirror of cornerTurnA. -/
def cornerTurnB : Turn := ⟨⟨1, 0, 1⟩, TurnType.SharedSidewalkCorner, eastPL 10⟩

/-- Witness for C5 at a concrete mirrored corner pair with opposite lane
orientations: exactly one polygon results. -/
theorem corners_ownership_unique_witness :
    (((cornerMap.get_l cornerTurnA.id.src).dst_i = exIntersection.id) ↔
      ¬ ((cornerMap.get_l cornerTurnB.id.src).dst_i = exIntersection.id)) ∧
    ((∀ t : Turn, cornerPolyFor exIntersection cornerMap t ≠ none →
        (cornerMap.get_l t.id.src).dst_i = exIntersection.id) ∧
      (cornerPolyFor exIntersection cornerMap cornerTurnA).toList.length +
        (cornerPolyFor exIntersection cornerMap cornerTurnB).toList.length = 1 ∧
      calculate_corners exIntersection cornerMap =
        (if exIntersection.is_footway then []
          else (cornerMap.turns_in exIntersection.id).filterMap
            (cornerPolyFor exIntersection cornerMap))) :=
  ⟨by simp [cornerMap, exMap, exLane, exLaneOut, exIntersection, cornerTurnA, cornerTurnB],
    corners_ownership_unique exIntersection cornerMap cornerTurnA cornerTurnB rfl rfl rfl rfl
      (by simp [cornerMap, exMap, exLane, exLaneOut, exIntersection, cornerTurnA, cornerTurnB])
      (by simp [cornerMap, exMap, exLane, exLaneOut, cornerTurnA, cornerTurnB])
      ⟨by simp [cornerTurnA, eastPL], by simp [cornerTurnA, eastPL]⟩
      ⟨by simp [cornerTurnB, eastPL], by simp [cornerTurnB, eastPL]⟩⟩

/- Mirror reflection (negating the y axis) of the whole geometry, used to
state the driving-side mirror-symmetry of the curb calculator. -/

/-- Reflect a point (or vector) across the x axis. -/
def mirrorPt (p : Pt2D) : Pt2D := ⟨p.x, -p.y⟩

/-- Reflect a segment. -/
def mirrorSeg (s : Seg) : Seg := ⟨mirrorPt s.dir, s.len⟩

/-- Reflect a polyline. -/
def mirrorPL (pl : PolyLine) : PolyLine := ⟨mirrorPt pl.start, pl.segs.map mirrorSeg⟩

/-- Reflect a line. -/
def mirrorLine (l : Line) : Line := ⟨mirrorPt l.pt1, mirrorPt l.dir, l.len⟩

/-- Reflect a produced polygon (mirroring the recorded builder inputs). -/
def mirrorPolygon : Polygon → Polygon
  | Polygon.buggy_new pts => Polygon.buggy_new (pts.map mirrorPt)
  | Polygon.ring pts => Polygon.ring (pts.map mirrorPt)
  | Polygon.thickened pts w => Polygon.thickened (pts.map mirrorPt) w
  | Polygon.arrow pts th cap => Polygon.arrow (pts.map mirrorPt) th cap
  | Polygon.octagonRing pts =>
    Polygon.octagonRing (pts.map (fun p => ⟨mirrorPt p.base, p.dist, mirrorPt p.facing, p.offsetDegs⟩))

/-- The opposite driving side. -/
def DrivingSide.flip : DrivingSide → DrivingSide
  | DrivingSide.Right => DrivingSide.Left
  | DrivingSide.Left => DrivingSide.Right

/-- Reflect a lane. -/
def mirrorLane (l : Lane) : Lane := { l with lane_center_pts := mirrorPL l.lane_center_pts }

/-- Reflect a turn. -/
def mirrorTurn (t : Turn) : Turn := { t with geom := mirrorPL t.geom }

/-- Reflect a road. -/
def mirrorRoad (r : Road) : Road :=
  { r with center_pts := mirrorPL r.center_pts, dir_change_pl := mirrorPL r.dir_change_pl }

/-- Reflect an intersection. -/
def mirrorIntersection (i : Intersection) : Intersection :=
  { i with polygon_ring := i.polygon_ring.map (List.map mirrorPt) }

/-- Reflect the whole map and flip the driving side. -/
def mirrorMap (m : Map) : Map :=
  { get_l := fun n => mirrorLane (m.get_l n)
    get_r := fun n => mirrorRoad (m.get_r n)
    get_i := fun n => mirrorIntersection (m.get_i n)
    turns_in := fun n => (m.turns_in n).map mirrorTurn
    driving_side := m.driving_side.flip }

/-- The direction of a reflected segment. -/
@[simp] theorem mirrorSeg_dir (s : Seg) : (mirrorSeg s).dir = mirrorPt s.dir := rfl

/-- The length of a reflected segment. -/
@[simp] theorem mirrorSeg_len (s : Seg) : (mirrorSeg s).len = s.len := rfl

/-- The start point of a reflected polyline. -/
@[simp] theorem mirrorPL_start (pl : PolyLine) : (mirrorPL pl).start = mirrorPt pl.start := rfl

/-- The segments of a reflected polyline. -/
@[simp] theorem mirrorPL_segs (pl : PolyLine) : (mirrorPL pl).segs = pl.segs.map mirrorSeg := rfl

/-- The start point of a reflected line. -/
@[simp] theorem mirrorLine_pt1 (l : Line) : (mirrorLine l).pt1 = mirrorPt l.pt1 := rfl

/-- The direction of a reflected line. -/
@[simp] theorem mirrorLine_dir (l : Line) : (mirrorLine l).dir = mirrorPt l.dir := rfl

/-- The length of a reflected line. -/
@[simp] theorem mirrorLine_len (l : Line) : (mirrorLine l).len = l.len := rfl

/-- The width of a reflected lane. -/
@[simp] theorem mirrorLane_width (l : Lane) : (mirrorLane l).width = l.width := rfl

/-- The center polyline of a reflected lane. -/
@[simp] theorem mirrorLane_pts (l : Lane) :
    (mirrorLane l).lane_center_pts = mirrorPL l.lane_center_pts := rfl

/-- The destination of a reflected lane. -/
@[simp] theorem mirrorLane_dst (l : Lane) : (mirrorLane l).dst_i = l.dst_i := rfl

/-- The id of a reflected turn. -/
@[simp] theorem mirrorTurn_id (t : Turn) : (mirrorTurn t).id = t.id := rfl

/-- The type of a reflected turn. -/
@[simp] theorem mirrorTurn_type (t : Turn) : (mirrorTurn t).turn_type = t.turn_type := rfl

/-- The geometry of a reflected turn. -/
@[simp] theorem mirrorTurn_geom (t : Turn) : (mirrorTurn t).geom = mirrorPL t.geom := rfl

/-- The id of a reflected intersection. -/
@[simp] theorem mirrorIntersection_id (i : Intersection) : (mirrorIntersection i).id = i.id := rfl

/-- The footway flag of a reflected intersection. -/
@[simp] theorem mirrorIntersection_footway (i : Intersection) :
    (mirrorIntersection i).is_footway = i.is_footway := rfl

/-- The lane lookup of a reflected map. -/
@[simp] theorem mirrorMap_get_l (m : Map) (n : ℕ) :
    (mirrorMap m).get_l n = mirrorLane (m.get_l n) := rfl

/-- The turn lookup of a reflected map. -/
@[simp] theorem mirrorMap_turns (m : Map) (n : ℕ) :
    (mirrorMap m).turns_in n = (m.turns_in n).map mirrorTurn := rfl

/-- The driving side of a reflected map. -/
@[simp] theorem mirrorMap_side (m : Map) :
    (mirrorMap m).driving_side = m.driving_side.flip := rfl

/-- Reflection commutes with vector addition. -/
theorem mirrorPt_add (p q : Pt2D) : mirrorPt (p.add q) = (mirrorPt p).add (mirrorPt q) := by
  simp [mirrorPt, Pt2D.add]
  try ring

/-- Reflection commutes with subtraction. -/
theorem mirrorPt_sub (p q : Pt2D) : mirrorPt (p.sub q) = (mirrorPt p).sub (mirrorPt q) := by
  simp [mirrorPt, Pt2D.sub]
  try ring

/-- Reflection commutes with scaling. -/
theorem mirrorPt_smul (c : ℚ) (p : Pt2D) :
    mirrorPt (Pt2D.smul c p) = Pt2D.smul c (mirrorPt p) := by
  simp [mirrorPt, Pt2D.smul]

/-- Reflection commutes with negation. -/
theorem mirrorPt_neg (p : Pt2D) : mirrorPt p.neg = (mirrorPt p).neg := by
  simp [mirrorPt, Pt2D.neg]

/-- Reflection is injective. -/
theorem mirrorPt_inj (p q : Pt2D) : mirrorPt p = mirrorPt q ↔ p = q := by
  obtain ⟨a, b⟩ := p
  obtain ⟨c, d⟩ := q
  simp [mirrorPt]

/-- The opposite-offset right-normal displacement of the reflection is the
reflection of the right-normal displacement. -/
theorem smul_neg_rightNormal_mirror (w : ℚ) (d : Pt2D) :
    Pt2D.smul (-w) (rightNormal (mirrorPt d)) = mirrorPt (Pt2D.smul w (rightNormal d)) := by
  simp [mirrorPt, rightNormal, Pt2D.smul]
  try ring

/-- Reflection negates the cross product. -/
theorem cross_mirror (a b : Pt2D) : Pt2D.cross (mirrorPt a) (mirrorPt b) = -(Pt2D.cross a b) := by
  simp [mirrorPt, Pt2D.cross]
  try ring

/-- Reflection preserves the dot product. -/
theorem dot_mirror (a b : Pt2D) : Pt2D.dot (mirrorPt a) (mirrorPt b) = Pt2D.dot a b := by
  simp [mirrorPt, Pt2D.dot]
  try ring

/-- Reflection preserves recovered segment lengths. -/
theorem lenAlong_mirror (v d : Pt2D) : lenAlong (mirrorPt v) (mirrorPt d) = lenAlong v d := by
  simp [lenAlong, dot_mirror]

/-- Reflection commutes with line intersection. -/
theorem lineInter_mirror (a da b db : Pt2D) :
    lineInter (mirrorPt a) (mirrorPt da) (mirrorPt b) (mirrorPt db) =
      (lineInter a da b db).map mirrorPt := by
  unfold lineInter
  rw [cross_mirror]
  by_cases hden : Pt2D.cross da db = 0
  · simp [hden]
  · rw [if_neg (by simpa using hden), if_neg hden]
    rw [← mirrorPt_sub, cross_mirror]
    rw [show -Pt2D.cross (b.sub a) db / -Pt2D.cross da db
      = Pt2D.cross (b.sub a) db / Pt2D.cross da db from neg_div_neg_eq _ _]
    simp [← mirrorPt_smul, ← mirrorPt_add]

/-- Reflection with opposite offset commutes with the miter joint. -/
theorem miterPt_mirror (w : ℚ) (p d0 d1 : Pt2D) :
    miterPt (-w) (mirrorPt p) (mirrorPt d0) (mirrorPt d1) = (miterPt w p d0 d1).map mirrorPt := by
  unfold miterPt
  by_cases heq : d0 = d1
  · rw [if_pos (by rw [heq]), if_pos heq]
    simp [← mirrorPt_add, smul_neg_rightNormal_mirror]
  · rw [if_neg (by simpa [mirrorPt_inj] using heq), if_neg heq]
    rw [show (mirrorPt p).add (Pt2D.smul (-w) (rightNormal (mirrorPt d0)))
      = mirrorPt (p.add (Pt2D.smul w (rightNormal d0))) by
        rw [smul_neg_rightNormal_mirror, ← mirrorPt_add]]
    rw [show (mirrorPt p).add (Pt2D.smul (-w) (rightNormal (mirrorPt d1)))
      = mirrorPt (p.add (Pt2D.smul w (rightNormal d1))) by
        rw [smul_neg_rightNormal_mirror, ← mirrorPt_add]]
    exact lineInter_mirror _ _ _ _

/-- Reflection with opposite offset commutes with the shift loop. -/
theorem shiftLoop_mirror (w : ℚ) (l : List Seg) :
    ∀ q p : Pt2D, shiftLoop (-w) (mirrorPt q) (mirrorPt p) (l.map mirrorSeg) =
      (shiftLoop w q p l).map (List.map mirrorSeg) := by
  induction l with
  | nil => intro q p; simp [shiftLoop]
  | cons s rest ih =>
    cases rest with
    | nil =>
      intro q p
      simp only [List.map_cons, List.map_nil, shiftLoop, mirrorSeg_dir, mirrorSeg_len]
      rw [show ((mirrorPt p).add (Pt2D.smul s.len (mirrorPt s.dir))).add
          (Pt2D.smul (-w) (rightNormal (mirrorPt s.dir)))
        = mirrorPt ((p.add (Pt2D.smul s.len s.dir)).add (Pt2D.smul w (rightNormal s.dir))) by
          rw [smul_neg_rightNormal_mirror, ← mirrorPt_smul, ← mirrorPt_add, ← mirrorPt_add]]
      rw [← mirrorPt_sub, lenAlong_mirror]
      simp [mirrorSeg]
    | cons s2 rest2 =>
      intro q p
      simp only [List.map_cons, shiftLoop, mirrorSeg_dir, mirrorSeg_len]
      rw [show (mirrorPt p).add (Pt2D.smul s.len (mirrorPt s.dir))
        = mirrorPt (p.add (Pt2D.smul s.len s.dir)) by
          rw [← mirrorPt_smul, ← mirrorPt_add]]
      rw [miterPt_mirror]
      cases hmp : miterPt w (p.add (Pt2D.smul s.len s.dir)) s.dir s2.dir with
      | none => simp
      | some mp =>
        simp only [Option.map_some']
        have hih := ih mp (p.add (Pt2D.smul s.len s.dir))
        simp only [List.map_cons] at hih
        rw [hih]
        cases hsl : shiftLoop w mp (p.add (Pt2D.smul s.len s.dir)) (s2 :: rest2) with
        | none => simp
        | some r =>
          simp only [Option.map_some']
          rw [← mirrorPt_sub, lenAlong_mirror]
          simp [mirrorSeg]

/-- Reflection with opposite offset commutes with the polyline shift. -/
theorem shift_right_mirror (pl : PolyLine) (w : ℚ) :
    (mirrorPL pl).shift_right (-w) = (pl.shift_right w).map mirrorPL := by
  unfold PolyLine.shift_right
  cases hsegs : pl.segs with
  | nil => simp [mirrorPL, hsegs]
  | cons s rest =>
    simp only [mirrorPL, hsegs, List.map_cons]
    rw [show (mirrorPt pl.start).add (Pt2D.smul (-w) (rightNormal (mirrorSeg s).dir))
      = mirrorPt (pl.start.add (Pt2D.smul w (rightNormal s.dir))) by
        rw [show (mirrorSeg s).dir = mirrorPt s.dir from rfl, smul_neg_rightNormal_mirror,
          ← mirrorPt_add]]
    have h := shiftLoop_mirror w (s :: rest)
      (pl.start.add (Pt2D.smul w (rightNormal s.dir))) pl.start
    simp only [List.map_cons] at h
    rw [h]
    cases shiftLoop w (pl.start.add (Pt2D.smul w (rightNormal s.dir))) pl.start (s :: rest) with
    | none => simp
    | some r => simp [mirrorPL]

/-- Every polyline shift-by-signed-offset is a right shift. -/
theorem PL_shift_either_eq (pl : PolyLine) (v : ℚ) :
    pl.shift_either_direction v = pl.shift_right v := by
  unfold PolyLine.shift_either_direction PolyLine.shift_left
  split
  · rfl
  · rw [neg_neg]

/-- Every line shift-by-signed-offset is a right shift. -/
theorem Line_shift_either_eq (l : Line) (v : ℚ) :
    l.shift_either_direction v = l.shift_right v := by
  unfold Line.shift_either_direction Line.shift_left Line.shift_right
  split
  · rfl
  · congr 1
    simp [leftNormal, rightNormal, Pt2D.smul, Pt2D.add]
    try ring

/-- Reflection with opposite offset commutes with the line shift. -/
theorem Line_shift_right_mirror (l : Line) (w : ℚ) :
    (mirrorLine l).shift_right (-w) = mirrorLine (l.shift_right w) := by
  unfold Line.shift_right mirrorLine
  simp only [smul_neg_rightNormal_mirror, ← mirrorPt_add]

/-- Reflection commutes with walking segments. -/
theorem walkSegs_mirror (p : Pt2D) (l : List Seg) :
    walkSegs (mirrorPt p) (l.map mirrorSeg) = mirrorPt (walkSegs p l) := by
  induction l generalizing p with
  | nil => simp [walkSegs]
  | cons s rest ih =>
    simp only [List.map_cons, walkSegs, mirrorSeg]
    rw [← mirrorPt_smul, ← mirrorPt_add, ih]

/-- Reflection commutes with the vertex list. -/
theorem pointsFrom_mirror (p : Pt2D) (l : List Seg) :
    pointsFrom (mirrorPt p) (l.map mirrorSeg) = (pointsFrom p l).map mirrorPt := by
  induction l generalizing p with
  | nil => simp [pointsFrom]
  | cons s rest ih =>
    simp only [List.map_cons, pointsFrom, mirrorSeg]
    rw [← mirrorPt_smul, ← mirrorPt_add, ih]

/-- Reflection commutes with the first line. -/
theorem first_line_mirror (pl : PolyLine) :
    (mirrorPL pl).first_line = mirrorLine pl.first_line := by
  unfold PolyLine.first_line mirrorPL
  cases pl.segs with
  | nil => simp [mirrorLine, mirrorPt]
  | cons s rest => simp [mirrorLine, mirrorSeg]

/-- Reflection commutes with the last point. -/
theorem last_pt_mirror (pl : PolyLine) : (mirrorPL pl).last_pt = mirrorPt pl.last_pt := by
  unfold PolyLine.last_pt mirrorPL
  exact walkSegs_mirror pl.start pl.segs

/-- Reflection commutes with the last line. -/
theorem last_line_mirror (pl : PolyLine) :
    (mirrorPL pl).last_line = mirrorLine pl.last_line := by
  unfold PolyLine.last_line
  rw [show (mirrorPL pl).segs = pl.segs.map mirrorSeg from rfl, List.getLast?_map]
  cases hlast : pl.segs.getLast? with
  | none => simp [mirrorLine, mirrorPt, mirrorPL]
  | some s =>
    simp only [Option.map_some', mirrorSeg_dir, mirrorSeg_len]
    rw [last_pt_mirror]
    simp only [mirrorLine]
    rw [← mirrorPt_smul, ← mirrorPt_sub]

/-- Reflection commutes with the second endpoint. -/
theorem pt2_mirror (l : Line) : (mirrorLine l).pt2 = mirrorPt l.pt2 := by
  unfold Line.pt2 mirrorLine
  simp only [← mirrorPt_smul, ← mirrorPt_add]

/-- Reflection commutes with line reversal. -/
theorem reverse_mirror (l : Line) : (mirrorLine l).reverse = mirrorLine l.reverse := by
  unfold Line.reverse
  rw [pt2_mirror]
  simp [mirrorLine, mirrorPt_neg]

/-- Reflection commutes with unbounded walking. -/
theorem unbounded_mirror (l : Line) (d : ℚ) :
    (mirrorLine l).unbounded_dist_along d = mirrorPt (l.unbounded_dist_along d) := by
  unfold Line.unbounded_dist_along mirrorLine
  simp only [← mirrorPt_smul, ← mirrorPt_add]

/-- Reflection commutes with consecutive dedup. -/
theorem dedupConsec_mirror (pts : List Pt2D) :
    dedupConsec (pts.map mirrorPt) = (dedupConsec pts).map mirrorPt := by
  induction pts with
  | nil => simp [dedupConsec]
  | cons p rest ih =>
    cases rest with
    | nil => simp [dedupConsec]
    | cons q rest2 =>
      simp only [List.map_cons, dedupConsec, mirrorPt_inj]
      by_cases h : p = q
      · rw [if_pos h, if_pos h]
        simpa using ih
      · rw [if_neg h, if_neg h]
        simp only [List.map_cons] at ih ⊢
        rw [ih]

/-- Reflection commutes with deduping_new. -/
theorem dedupingNew_mirror (pts : List Pt2D) :
    dedupingNew (pts.map mirrorPt) = (dedupingNew pts).map (List.map mirrorPt) := by
  unfold dedupingNew
  rw [dedupConsec_mirror]
  by_cases h : 2 ≤ (dedupConsec pts).length
  · rw [if_pos (by simpa using h), if_pos h]
    simp
  · rw [if_neg (by simpa using h), if_neg h]
    rfl

/-- Reflection of a signed either-direction line shift with opposite
offset. -/
theorem Line_shift_either_mirror (l : Line) (w : ℚ) :
    (mirrorLine l).shift_either_direction (-w) = mirrorLine (l.shift_either_direction w) := by
  rw [Line_shift_either_eq, Line_shift_either_eq, Line_shift_right_mirror]

/-- Reflection of a signed either-direction polyline shift with opposite
offset. -/
theorem PL_shift_either_mirror (pl : PolyLine) (w : ℚ) :
    (mirrorPL pl).shift_either_direction (-w) = (pl.shift_either_direction w).map mirrorPL := by
  rw [PL_shift_either_eq, PL_shift_either_eq, shift_right_mirror]

/-- Reflection commutes with the vertex list of a polyline. -/
theorem points_mirror (pl : PolyLine) : (mirrorPL pl).points = pl.points.map mirrorPt := by
  unfold PolyLine.points
  exact pointsFrom_mirror pl.start pl.segs

/-- Reflection commutes with a lane's first line. -/
theorem Lane_first_line_mirror (l : Lane) :
    (mirrorLane l).first_line = mirrorLine l.first_line := by
  unfold Lane.first_line
  rw [mirrorLane_pts, first_line_mirror]

/-- Reflection commutes with a lane's last line. -/
theorem Lane_last_line_mirror (l : Lane) :
    (mirrorLane l).last_line = mirrorLine l.last_line := by
  unfold Lane.last_line
  rw [mirrorLane_pts, last_line_mirror]

/-- Reflection commutes with the curb tail on an assembled corner point
list. -/
theorem curbFinish_assemble_mirror (a b c d : Pt2D) (pts : List Pt2D) (th : ℚ) :
    curbFinish ([mirrorPt a, mirrorPt b] ++ (pts.map mirrorPt ++ [mirrorPt c, mirrorPt d])) th =
      (curbFinish ([a, b] ++ (pts ++ [c, d])) th).map mirrorPolygon := by
  unfold curbFinish
  rw [show [mirrorPt a, mirrorPt b] ++ (pts.map mirrorPt ++ [mirrorPt c, mirrorPt d])
    = ([a, b] ++ (pts ++ [c, d])).map mirrorPt by simp]
  rw [dedupingNew_mirror]
  cases dedupingNew ([a, b] ++ (pts ++ [c, d])) with
  | none => simp
  | some dpts => simp [mirrorPolygon]

/-- Reflection commutes with the curb tail on a quadrilateral point
list. -/
theorem curbFinish_quad_mirror (a b c d : Pt2D) (th : ℚ) :
    curbFinish [mirrorPt a, mirrorPt b, mirrorPt c, mirrorPt d] th =
      (curbFinish [a, b, c, d] th).map mirrorPolygon := by
  unfold curbFinish
  rw [show [mirrorPt a, mirrorPt b, mirrorPt c, mirrorPt d]
    = ([a, b, c, d] : List Pt2D).map mirrorPt by simp]
  rw [dedupingNew_mirror]
  cases dedupingNew ([a, b, c, d] : List Pt2D) with
  | none => simp
  | some dpts => simp [mirrorPolygon]

/-- A driving side is Right or Left. -/
theorem DrivingSide.eq_right_or_left (d : DrivingSide) :
    d = DrivingSide.Right ∨ d = DrivingSide.Left := by
  cases d
  · exact Or.inl rfl
  · exact Or.inr rfl

/-- The per-turn curb contribution of the reflected map (with flipped
driving side) is the reflection of the original contribution: every
driving-side-dependent offset flips sign exactly as the reflection
requires. -/
theorem curbPolyFor_mirror (i : Intersection) (m : Map) (turn : Turn) :
    curbPolyFor (mirrorIntersection i) (mirrorMap m) (mirrorTurn turn) =
      (curbPolyFor i m turn).map mirrorPolygon := by
  unfold curbPolyFor
  simp only [mirrorTurn_type, mirrorTurn_id, mirrorTurn_geom, mirrorMap_get_l, mirrorMap_side,
    mirrorLane_dst, mirrorLane_width, mirrorIntersection_id]
  by_cases hssc : turn.turn_type = TurnType.SharedSidewalkCorner
  swap
  · rw [if_neg hssc, if_neg hssc]
    rfl
  rw [if_pos hssc, if_pos hssc]
  by_cases howned : (m.get_l turn.id.src).dst_i ≠ i.id
  · rw [if_pos howned, if_pos howned]
    rfl
  rw [if_neg howned, if_neg howned]
  by_cases heqw : (m.get_l turn.id.src).width = (m.get_l turn.id.dst).width
  · rw [if_pos heqw, if_pos heqw]
    rcases DrivingSide.eq_right_or_left m.driving_side with hside | hside
    · simp only [hside]
      simp only [show DrivingSide.Right.flip = DrivingSide.Left from rfl]
      simp only [show (DrivingSide.Left = DrivingSide.Right) = False by simp,
        show (DrivingSide.Right = DrivingSide.Right) = True by simp, if_true, if_false]
      conv_lhs =>
        rw [show ((m.get_l turn.id.src).width - 2 / 10) / 2
          = -(-(((m.get_l turn.id.src).width - 2 / 10) / 2)) from (neg_neg _).symm]
      rw [Lane_first_line_mirror, Lane_last_line_mirror, PL_shift_either_mirror,
        Line_shift_either_mirror, Line_shift_either_mirror]
      cases hg : turn.geom.shift_either_direction
          (-(((m.get_l turn.id.src).width - 2 / 10) / 2)) with
      | none => simp
      | some spl =>
        simp only [Option.map_some']
        rw [reverse_mirror, unbounded_mirror, unbounded_mirror, mirrorLine_pt1, mirrorLine_pt1,
          points_mirror, curbFinish_assemble_mirror]
    · simp only [hside]
      simp only [show DrivingSide.Left.flip = DrivingSide.Right from rfl]
      simp only [show (DrivingSide.Left = DrivingSide.Right) = False by simp,
        show (DrivingSide.Right = DrivingSide.Right) = True by simp, if_true, if_false]
      rw [Lane_first_line_mirror, Lane_last_line_mirror, PL_shift_either_mirror,
        Line_shift_either_mirror, Line_shift_either_mirror]
      cases hg : turn.geom.shift_either_direction
          (((m.get_l turn.id.src).width - 2 / 10) / 2) with
      | none => simp
      | some spl =>
        simp only [Option.map_some']
        rw [reverse_mirror, unbounded_mirror, unbounded_mirror, mirrorLine_pt1, mirrorLine_pt1,
          points_mirror, curbFinish_assemble_mirror]
  · rw [if_neg heqw, if_neg heqw]
    rcases DrivingSide.eq_right_or_left m.driving_side with hside | hside
    · simp only [hside]
      simp only [show DrivingSide.Right.flip = DrivingSide.Left from rfl]
      simp only [show (DrivingSide.Left = DrivingSide.Right) = False by simp,
        show (DrivingSide.Right = DrivingSide.Right) = True by simp, if_true, if_false]
      conv_lhs =>
        rw [show (1 : ℚ) * (((m.get_l turn.id.src).width - 2 / 10) / 2)
          = -(-1 * (((m.get_l turn.id.src).width - 2 / 10) / 2)) by ring]
        rw [show (1 : ℚ) * (((m.get_l turn.id.dst).width - 2 / 10) / 2)
          = -(-1 * (((m.get_l turn.id.dst).width - 2 / 10) / 2)) by ring]
      rw [Lane_first_line_mirror, Lane_last_line_mirror, Line_shift_either_mirror,
        Line_shift_either_mirror]
      rw [reverse_mirror, unbounded_mirror, unbounded_mirror, mirrorLine_pt1, pt2_mirror,
        curbFinish_quad_mirror]
    · simp only [hside]
      simp only [show DrivingSide.Left.flip = DrivingSide.Right from rfl]
      simp only [show (DrivingSide.Left = DrivingSide.Right) = False by simp,
        show (DrivingSide.Right = DrivingSide.Right) = True by simp, if_true, if_false]
      conv_lhs =>
        rw [show (-1 : ℚ) * (((m.get_l turn.id.src).width - 2 / 10) / 2)
          = -(1 * (((m.get_l turn.id.src).width - 2 / 10) / 2)) by ring]
        rw [show (-1 : ℚ) * (((m.get_l turn.id.dst).width - 2 / 10) / 2)
          = -(1 * (((m.get_l turn.id.dst).width - 2 / 10) / 2)) by ring]
      rw [Lane_first_line_mirror, Lane_last_line_mirror, Line_shift_either_mirror,
        Line_shift_either_mirror]
      rw [reverse_mirror, unbounded_mirror, unbounded_mirror, mirrorLine_pt1, pt2_mirror,
        curbFinish_quad_mirror]

/-- C9: flipping the global driving-side configuration flips the offset
direction applied in calculate_corner_curbs: running the calculator on the
reflected geometry with the flipped driving side yields exactly the
reflection of the original curb polygons (two-run mirror symmetry in the
driving-side parameter). -/
theorem curbs_driving_side_mirror (i : Intersection) (m : Map) :
    calculate_corner_curbs (mirrorIntersection i) (mirrorMap m) =
      (calculate_corner_curbs i m).map mirrorPolygon := by
  unfold calculate_corner_curbs
  simp only [mirrorIntersection_footway, mirrorIntersection_id, mirrorMap_turns]
  by_cases hfw : i.is_footway
  · simp [hfw]
  · simp only [hfw, Bool.false_eq_true, if_false]
    rw [List.filterMap_map, List.map_filterMap]
    congr 1
    funext t
    rw [Function.comp_apply, curbPolyFor_mirror]

/-- C4: stop_sign_geom returns "no room" (none) exactly when the
approach's edge-lane length minus the fixed 0.1 m trim is at or below the
epsilon distance, and returns a non-null (octagon, pole, angle) triple for
every longer edge lane; it is a pure function, so returning none carries
no other effect. -/
theorem stop_sign_none_iff_short (ss : RoadWithStopSign) (m : Map) :
    stop_sign_geom ss m = none ↔
      (m.get_l ss.lane_closest_to_edge).length - 1 / 10 ≤ EPSILON_DIST := by
  unfold stop_sign_geom
  split
  case isTrue h => simp [h]
  case isFalse h => simp [h]

/-- C10: clear_rendering empties only the default drawable slot, leaving
the separately keyed traffic-signal slot unchanged; a subsequent draw
recomputes the default slot, and the signal slot is refreshed exactly when
its stored time key differs from the simulation time (in particular a
clear_rendering never changes it). -/
theorem clear_rendering_only_default {D : Type} (s : DrawIntersectionState D)
    (ru : Unit → D) (su : ℚ → D) (hs sup : Bool) (t : ℚ) :
    (clear_rendering s).draw_traffic_signal = s.draw_traffic_signal ∧
    (clear_rendering s).draw_default = none ∧
    ((drawStep ru su true false t s).draw_traffic_signal =
      if s.draw_traffic_signal.map Prod.fst = some t then s.draw_traffic_signal
      else some (t, su t)) ∧
    ((drawStep ru su hs sup t s).draw_default =
      match s.draw_default with
      | none => some (ru ())
      | some d => some d) := by
  obtain ⟨d0, sig⟩ := s
  refine ⟨rfl, rfl, ?_, ?_⟩
  · cases sig with
    | none => cases d0 <;> simp [drawStep]
    | some td =>
      obtain ⟨k, dd⟩ := td
      by_cases hk : k = t <;> cases d0 <;> simp [drawStep, hk]
  · cases d0 <;> cases hs <;> cases sup <;>
      simp [drawStep] <;> split <;> rfl

end ABStreet
